import Mathlib

/-!
# Noctua — verification of the ingestion-and-filtering pipeline

A shallow embedding of the `noctua` repository's core pipeline
(`src/workflow/download/main.py`, `src/workflow/filter/main.py`,
`src/workflow/common/{models,config,io}.py`) together with proofs of the
frozen specification claims.

Modelling conventions:
* machine timestamps are modelled by a `DateTime` structure of calendar
  components; age arithmetic is done over exact integers (seconds), which
  agrees with Python's `timedelta.total_seconds()/3600` comparison on
  whole-second data;
* Python strings are Lean `String`s; Python's `str.lower`/substring tests
  operate on `List Char`;
* Python sets accumulate into Lean lists (only membership is used);
* external collaborators (BeautifulSoup, dateutil, hashlib, the network,
  feedparser's lexer) are passed in as explicit function parameters; the
  repository's own control flow around them is embedded verbatim;
* a Python `try:`/`except:` around a collaborator call is modelled by the
  collaborator returning `Option` (with `none` for "raised").
-/

namespace Noctua

/-! ## Calendar time

`datetime` values are naive calendar stamps `(year, month, day, hour,
minute, second)`; the pipeline only ever subtracts them, which we model by
conversion to seconds since 0001-01-01 in the proleptic Gregorian
calendar (what Python's `datetime` arithmetic computes). -/

structure DateTime where
  year : Nat
  month : Nat
  day : Nat
  hour : Nat
  minute : Nat
  second : Nat
  deriving DecidableEq, Repr

/-- Cumulative day count at the start of month `m` in a non-leap year. -/
def cumMonthDays (m : Nat) : Nat :=
  [0, 31, 59, 90, 120, 151, 181, 212, 243, 273, 304, 334].getD (m - 1) 0

def isLeapYear (y : Nat) : Bool :=
  (y % 4 = 0 && y % 100 ≠ 0) || y % 400 = 0

/-- Days in a given month of a given year (Gregorian). -/
def daysInMonth (y m : Nat) : Nat :=
  if m = 2 then (if isLeapYear y then 29 else 28)
  else if m = 4 ∨ m = 6 ∨ m = 9 ∨ m = 11 then 30
  else 31

/-- Seconds since 0001-01-01 00:00:00 (proleptic Gregorian). -/
def DateTime.toSec (t : DateTime) : Nat :=
  let y := t.year - 1
  let days := 365 * y + y / 4 - y / 100 + y / 400
    + cumMonthDays t.month
    + (if 2 < t.month && isLeapYear t.year then 1 else 0)
    + (t.day - 1)
  days * 86400 + t.hour * 3600 + t.minute * 60 + t.second

/-- Exact age in seconds of a publication stamp `pub` relative to `now`. -/
def ageSec (now pub : DateTime) : Int :=
  (now.toSec : Int) - (pub.toSec : Int)

/-! ## Data model (`src/workflow/common/models.py`) -/

structure Article where
  id : String
  title : String
  url : String
  published : Option DateTime := none
  updated : Option DateTime := none
  author : Option String := none
  summary : Option String := none
  content : Option String := none
  clean_content : Option String := none
  ai_summary : Option String := none
  word_count : Int := 0
  feed_name : String := ""
  section_id : String := ""
  tags : List String := []
  is_filtered : Bool := false
  filter_reason : Option String := none
  deriving DecidableEq, Repr

structure Feed where
  id : String
  name : String
  url : String
  section_id : String
  title : Option String := none
  description : Option String := none
  link : Option String := none
  last_updated : Option DateTime := none
  articles : List Article := []
  fetch_status : String := "pending"
  fetch_error : Option String := none
  fetched_at : Option DateTime := none
  deriving DecidableEq, Repr

structure Section where
  id : String
  name : String
  description : String := ""
  icon : String := ""
  feeds : List Feed := []
  ai_summary : Option String := none
  deriving DecidableEq, Repr

structure FeedData where
  sections : List Section := []
  processed_at : DateTime
  step : String := ""
  overall_summary : Option String := none
  deriving DecidableEq, Repr

/-! ## String helpers shared by the pipeline -/

/-- Python `s.lower()` viewed as a character list. -/
def lowerChars (s : String) : List Char := s.data.map Char.toLower

/-- Python's substring test `needle in hay` on character lists. -/
def containsSub (needle hay : List Char) : Bool :=
  hay.tails.any (fun t => needle.isPrefixOf t)

/-- Rendering of an optional string inside a Python f-string:
`None` prints as the four characters `"None"`. -/
def pyStrOpt : Option String → String
  | none => "None"
  | some s => s

/-- Python truthiness of an optional string (`None` and `""` are falsy). -/
def truthyS : Option String → Bool
  | none => false
  | some s => s ≠ ""

/-- Python `x or y` for two optional strings (keeps `x` when truthy). -/
def pyOrOpt (x y : Option String) : Option String :=
  if truthyS x then x else y

/-- Python `x or y` for two plain strings. -/
def pyOrStr (x y : String) : String :=
  if x ≠ "" then x else y

/-! ## Filter stage (`src/workflow/filter/main.py`) -/

/-- Modelled from the spec: the class `GlobalFilters` imported by
`src/workflow/filter/main.py` from `workflow.common.config` is absent from
`src/` (only its callers exist).  Its fields follow §3/§4.5/§6 of the spec
(the effective per-section policy: `max_age_hours`, `exclude_keywords`,
`require_keywords`, `min_content_length`) and the accesses performed by
`filter_article`/`check_keywords`. -/
structure GlobalFilters where
  max_age_hours : Int := 72
  exclude_keywords : List String := []
  require_keywords : List String := []
  min_content_length : Nat := 0
  deriving DecidableEq, Repr

/-- The `for keyword in exclude_keywords` loop of `check_keywords`:
first keyword whose lowering occurs in the lowered text. -/
def findExcluded : List String → List Char → Option String
  | [], _ => none
  | kw :: rest, textLower =>
    if containsSub (lowerChars kw) textLower then some kw
    else findExcluded rest textLower

/-- `check_keywords` (filter/main.py, lines 31–55): returns
`(passes, reason)`. -/
def check_keywords (text : String) (exclude_keywords require_keywords : List String) :
    Bool × Option String :=
  match findExcluded exclude_keywords (lowerChars text) with
  | some kw => (false, some ("Contains excluded keyword: " ++ kw))
  | none =>
    if require_keywords ≠ [] then
      if require_keywords.any (fun kw => containsSub (lowerChars kw) (lowerChars text)) then
        (true, none)
      else
        (false, some "Missing required keywords")
    else (true, none)

/-- The age-based `filter_reason` string (`f"Too old ({age_hours:.0f}h > {max}h)"`;
the float formatting of the hour count is approximated by integer division). -/
def ageReason (ageHours maxAge : Int) : String :=
  "Too old (" ++ toString ageHours ++ "h > " ++ toString maxAge ++ "h)"

/-- The keyword half of `filter_article` (lines 79–92). -/
def filterArticleKeywords (filters : GlobalFilters) (a : Article) : Article :=
  match check_keywords (a.title ++ " " ++ pyStrOpt a.summary)
      filters.exclude_keywords filters.require_keywords with
  | (true, _) => a
  | (false, reason) => { a with is_filtered := true, filter_reason := reason }

/-- `filter_article` (filter/main.py, lines 58–92).  The timezone
normalisation of lines 67–72 is invisible here because all stamps are
modelled as naive UTC; the float comparison `age_hours > max_age_hours`
is the exact integer comparison `ageSec > max_age_hours * 3600`. -/
def filter_article (filters : GlobalFilters) (now : DateTime) (a : Article) : Article :=
  match a.published with
  | some pub =>
    if ageSec now pub > filters.max_age_hours * 3600 then
      { a with is_filtered := true
               filter_reason := some (ageReason (ageSec now pub / 3600) filters.max_age_hours) }
    else
      filterArticleKeywords filters a
  | none => filterArticleKeywords filters a

/-- URL normalisation of `deduplicate_articles` (line 103):
`article.url.lower().rstrip("/")`. -/
def urlKey (url : String) : List Char :=
  (((lowerChars url).reverse.dropWhile (fun c => c = '/')).reverse)

/-- A character kept by `re.sub(r"[^\w\s]", "", ·)`. -/
def isWordOrSpace (c : Char) : Bool :=
  c.isAlphanum || c = '_' || c.isWhitespace

/-- `re.sub(r"\s+", " ", ·)`: each maximal whitespace run becomes one space. -/
def collapseWs : List Char → List Char
  | [] => []
  | c :: rest =>
    if c.isWhitespace then ' ' :: collapseWs (rest.dropWhile Char.isWhitespace)
    else c :: collapseWs rest
termination_by l => l.length
decreasing_by
  · exact Nat.lt_succ_of_le (List.dropWhile_sublist _).length_le
  · exact Nat.lt_succ_self _

/-- Python `.strip()` after the collapse (only spaces can remain at the ends). -/
def stripEnds (l : List Char) : List Char :=
  ((l.dropWhile Char.isWhitespace).reverse.dropWhile Char.isWhitespace).reverse

/-- Title normalisation of `deduplicate_articles` (lines 106–107). -/
def titleKey (title : String) : List Char :=
  stripEnds (collapseWs ((lowerChars title).filter isWordOrSpace))

/-- The scan of `deduplicate_articles` (lines 101–119): `seen_urls` /
`seen_titles` are the two Python sets (modelled as lists, membership only). -/
def dedupGo (seenUrls seenTitles : List (List Char)) : List Article → List Article
  | [] => []
  | a :: rest =>
    let url_key := urlKey a.url
    let title_key := titleKey a.title
    if url_key ∈ seenUrls then
      { a with is_filtered := true, filter_reason := some "Duplicate URL" }
        :: dedupGo seenUrls seenTitles rest
    else if title_key ∈ seenTitles then
      { a with is_filtered := true, filter_reason := some "Duplicate title" }
        :: dedupGo seenUrls seenTitles rest
    else
      a :: dedupGo (url_key :: seenUrls) (title_key :: seenTitles) rest

/-- `deduplicate_articles` (filter/main.py, lines 95–121). -/
def deduplicate_articles (articles : List Article) : List Article :=
  dedupGo [] [] articles

/-- The per-feed body of `filter_feeds` (lines 138–145): apply
`filter_article` to every article in place, then deduplicate. -/
def processFeedArticles (filters : GlobalFilters) (now : DateTime)
    (articles : List Article) : List Article :=
  deduplicate_articles (articles.map (filter_article filters now))

/-- `filter_feeds` (filter/main.py, lines 124–173), with the console
statistics (pure I/O) omitted.  `sectionFilters` stands for
`config.get_section_filters(section.id)` and `endNow` for the
`datetime.now()` stamped into `processed_at` at line 157. -/
def filter_feeds (sectionFilters : String → GlobalFilters) (now endNow : DateTime)
    (data : FeedData) : FeedData :=
  { data with
    sections := data.sections.map (fun sec =>
      { sec with feeds := sec.feeds.map (fun feed =>
          { feed with articles := processFeedArticles (sectionFilters sec.id) now feed.articles }) })
    processed_at := endNow
    step := "filter" }

/-! ## Configuration (`src/workflow/common/config.py`) -/

structure FilterConfig where
  max_age_hours : Option Int := none
  exclude_keywords : Option (List String) := none
  require_keywords : Option (List String) := none
  exclude_url_part : Option String := none
  require_url_part : Option String := none
  deduplicate : Option Bool := none
  deriving DecidableEq, Repr

structure FeedConfig where
  name : String
  url : String
  enabled : Bool := true
  filter : Option FilterConfig := none
  deriving DecidableEq, Repr

structure SectionConfig where
  name : String
  description : String := ""
  icon : String := ""
  enabled : Bool := true
  filter : Option FilterConfig := none
  feeds : List FeedConfig := []
  deriving DecidableEq, Repr

structure Settings where
  output_base : String := "output"
  filter : Option FilterConfig := none
  deriving DecidableEq, Repr

/-- `NoctuaConfig`; the `sections` dict is an insertion-ordered association
list with distinct keys. -/
structure NoctuaConfig where
  settings : Settings := {}
  sections : List (String × SectionConfig) := []
  deriving DecidableEq, Repr

/-- `NoctuaConfig.get_enabled_sections` (config.py, lines 82–84).  A Python
dict comprehension keeps insertion order. -/
def get_enabled_sections (c : NoctuaConfig) : List (String × SectionConfig) :=
  c.sections.filter (fun p => p.2.enabled)

/-- `self.sections.get(section_id)`. -/
def lookupSection (c : NoctuaConfig) (section_id : String) : Option SectionConfig :=
  (c.sections.find? (fun p => p.1 = section_id)).map (fun p => p.2)

/-- `NoctuaConfig.get_enabled_feeds` (config.py, lines 86–91). -/
def get_enabled_feeds (c : NoctuaConfig) (section_id : String) : List FeedConfig :=
  match lookupSection c section_id with
  | none => []
  | some sec => sec.feeds.filter (fun f => f.enabled)

/-- Field-wise `if val is not None: setattr(base, field, val)`. -/
def overrideField {α : Type} (base override : Option α) : Option α :=
  match override with
  | some v => some v
  | none => base

/-- `NoctuaConfig._apply_filter_override` (config.py, lines 124–129). -/
def apply_filter_override (base override : FilterConfig) : FilterConfig :=
  { max_age_hours := overrideField base.max_age_hours override.max_age_hours
    exclude_keywords := overrideField base.exclude_keywords override.exclude_keywords
    require_keywords := overrideField base.require_keywords override.require_keywords
    exclude_url_part := overrideField base.exclude_url_part override.exclude_url_part
    require_url_part := overrideField base.require_url_part override.require_url_part
    deduplicate := overrideField base.deduplicate override.deduplicate }

/-- `NoctuaConfig.get_effective_filter` (config.py, lines 93–122). -/
def get_effective_filter (c : NoctuaConfig) (section_id : Option String)
    (feed_name : Option String) : FilterConfig :=
  let resolved : FilterConfig := { max_age_hours := some 72, deduplicate := some true }
  let resolved :=
    match c.settings.filter with
    | some g => apply_filter_override resolved g
    | none => resolved
  match section_id with
  | none => resolved
  | some sid =>
    match lookupSection c sid with
    | none => resolved
    | some sec =>
      let resolved :=
        match sec.filter with
        | some f => apply_filter_override resolved f
        | none => resolved
      match feed_name with
      | none => resolved
      | some fn =>
        match sec.feeds.find? (fun f => f.name = fn && f.filter.isSome) with
        | some f =>
          match f.filter with
          | some ff => apply_filter_override resolved ff
          | none => resolved
        | none => resolved

/-- Modelled from the spec: `NoctuaConfig.get_section_filters`, called by
`filter_feeds` at filter/main.py line 136, is absent from `src/` (only the
call site exists).  Per §4.5 it resolves the effective policy for a
section with no feed layer — modelled here as the section-level resolution
of `get_effective_filter` (the merge machinery that is in `src/`), widened
to the `GlobalFilters` shape of the spec: absent keyword sets become the
empty set and an absent minimum content length becomes the (unspecified in
the spec, hence 0) default. -/
def get_section_filters (c : NoctuaConfig) (section_id : String) : GlobalFilters :=
  let eff := get_effective_filter c (some section_id) none
  { max_age_hours := eff.max_age_hours.getD 72
    exclude_keywords := eff.exclude_keywords.getD []
    require_keywords := eff.require_keywords.getD []
    min_content_length := 0 }

/-! ## Download stage (`src/workflow/download/main.py`) -/

/-- One `media_content` item of a raw entry. -/
structure MediaContent where
  medium : Option String := none
  url : Option String := none
  deriving DecidableEq, Repr

/-- One `enclosures` item of a raw entry. -/
structure Enclosure where
  type : Option String := none
  href : Option String := none
  deriving DecidableEq, Repr

/-- One `content` / `summary_detail` item of a raw entry. -/
structure ContentItem where
  value : Option String := none
  deriving DecidableEq, Repr

structure AuthorItem where
  name : Option String := none
  deriving DecidableEq, Repr

structure TagItem where
  term : Option String := none
  deriving DecidableEq, Repr

/-- A pre-parsed six-component time tuple (`entry["published_parsed"][:6]`). -/
structure TimeTuple where
  year : Nat
  month : Nat
  day : Nat
  hour : Nat
  minute : Nat
  second : Nat
  deriving DecidableEq, Repr

/-- A raw feed entry: the loosely-typed mapping consumed by
`parse_feed_entry`.  Absent keys are `none`. -/
structure Entry where
  link : Option String := none
  id : Option String := none
  guid : Option String := none
  title : Option String := none
  summary : Option String := none
  content : Option (List ContentItem) := none
  summary_detail : Option ContentItem := none
  media_content : Option (List MediaContent) := none
  enclosures : Option (List Enclosure) := none
  published_parsed : Option TimeTuple := none
  published : Option String := none
  updated_parsed : Option TimeTuple := none
  updated : Option String := none
  author : Option String := none
  authors : Option (List AuthorItem) := none
  tags : Option (List TagItem) := none
  deriving DecidableEq, Repr

/-- External collaborators of the download stage, passed explicitly:
* `sha16` — `hashlib.sha256(...).hexdigest()[:16]`;
* `bsGetText` — the BeautifulSoup pipeline of `sanitize_summary`'s `try:`
  block up to `soup.get_text(separator=" ")` (`none` = the parser raised);
* `findImgSrc` — `BeautifulSoup(...).find("img")["src"]` (`none` = no
  `<img>` with a `src`, or the parser raised);
* `parseDate` — `dateutil.parser.parse` (`none` = raised). -/
structure Collab where
  sha16 : String → String
  bsGetText : String → Option String
  findImgSrc : String → Option String
  parseDate : String → Option DateTime

/-- `generate_article_id` (download/main.py, lines 45–48). -/
def generate_article_id (sha16 : String → String) (url title : String) : String :=
  sha16 (url ++ ":" ++ title)

/-- `parse_date` (download/main.py, lines 35–42): `None`/empty input gives
`None`, a parser error gives `None`. -/
def parse_date (parseDate : String → Option DateTime) : Option String → Option DateTime
  | none => none
  | some s => if s = "" then none else parseDate s

/-- Python `" ".join(text.split())` (download/main.py, line 92). -/
def joinSplit (s : String) : String :=
  String.intercalate " " ((s.split Char.isWhitespace).filter (fun w => w ≠ ""))

/-- `sanitize_summary` (download/main.py, lines 51–97).  Everything inside
the `try:` block up to `get_text` is collaborator code (`bsGetText`);
the final whitespace normalisation (line 92) and the two fallbacks
(empty input, parser failure) are the repository's own logic.  The
function is total: sanitisation never raises. -/
def sanitize_summary (bsGetText : String → Option String) (text : String) : String :=
  if text = "" then ""
  else
    match bsGetText text with
    | some extracted => joinSplit extracted
    | none => text

/-- `datetime(*tuple[:6])`: Python validates the calendar components and
raises `ValueError` on an out-of-range field (modelled as `none`). -/
def mkDatetime (t : TimeTuple) : Option DateTime :=
  if 1 ≤ t.year && t.year ≤ 9999 && 1 ≤ t.month && t.month ≤ 12
      && 1 ≤ t.day && t.day ≤ daysInMonth t.year t.month
      && t.hour ≤ 23 && t.minute ≤ 59 && t.second ≤ 59 then
    some ⟨t.year, t.month, t.day, t.hour, t.minute, t.second⟩
  else none

/-- The shared date-resolution pattern of lines 152–168: prefer the
pre-parsed tuple, fall back to free-text parsing on absence or on a
construction error. -/
def resolveDate (libs : Collab) (parsedField : Option TimeTuple)
    (textField : Option String) : Option DateTime :=
  match parsedField with
  | some t =>
    match mkDatetime t with
    | some d => some d
    | none => parse_date libs.parseDate textField
  | none => parse_date libs.parseDate textField

/-- Python `a or b` where `a` is an optional string and `b` a string:
used for `entry.get("id") or entry.get("guid") or generate_article_id(...)`. -/
def pyFirstTruthy (x : Option String) (fallback : String) : String :=
  match x with
  | some s => if s ≠ "" then s else fallback
  | none => fallback

/-- `raw_summary` of `parse_feed_entry` (line 110). -/
def entryRawSummary (entry : Entry) : String :=
  entry.summary.getD ""

/-- `raw_content` of `parse_feed_entry` (lines 111–115): the first content
item's value if `entry["content"]` is present and truthy (non-empty list),
else `summary_detail`'s value if present, else `""`. -/
def entryRawContent (entry : Entry) : String :=
  match entry.content with
  | some (c :: _) => c.value.getD ""
  | _ =>
    match entry.summary_detail with
    | some sd => sd.value.getD ""
    | none => ""

/-- Stage 1 of the image extraction (lines 120–125): first
`media_content` item with `medium == "image"` carrying a `url`. -/
def mediaImageFirst (entry : Entry) : Option String :=
  match entry.media_content with
  | some ms => ms.findSome? (fun m =>
      if m.medium = some "image" && m.url.isSome then m.url else none)
  | none => none

/-- Stage 2 of the image extraction (lines 127–132): first enclosure
whose declared type starts with `"image/"` and that carries an `href`. -/
def enclosureImageFirst (entry : Entry) : Option String :=
  match entry.enclosures with
  | some es => es.findSome? (fun e =>
      if (e.type.getD "").startsWith "image/" && e.href.isSome then e.href else none)
  | none => none

/-- The image-extraction block of `parse_feed_entry` (lines 117–144),
computing the local variable `image_url`.  Each later stage runs only
while the accumulated value is still falsy (`None` or `""`); the `<img>`
search of stage 3 runs over `raw_content or raw_summary`. -/
def entryImageUrl (libs : Collab) (entry : Entry) : Option String :=
  let image1 := mediaImageFirst entry
  let image2 : Option String :=
    if truthyS image1 then image1
    else
      match enclosureImageFirst entry with
      | some href => some href
      | none => image1
  if truthyS image2 then image2
  else
    let search_text := pyOrStr (entryRawContent entry) (entryRawSummary entry)
    if search_text ≠ "" then
      match libs.findImgSrc search_text with
      | some src => if src ≠ "" then some src else image2
      | none => image2
    else image2

/-- `parse_feed_entry` (download/main.py, lines 100–192).

Note that the constructor call at lines 180–192 passes `image_url=...`,
but the `Article` model (models.py, lines 11–43) declares no `image_url`
field; pydantic's default `extra="ignore"` silently drops the extra
keyword, so the value computed by `entryImageUrl` never reaches the
produced `Article`. -/
def parse_feed_entry (libs : Collab) (entry : Entry) (feed_name section_id : String) :
    Article :=
  let url := entry.link.getD ""
  let article_id :=
    pyFirstTruthy entry.id
      (pyFirstTruthy entry.guid (generate_article_id libs.sha16 url (entry.title.getD "")))
  let raw_summary := entryRawSummary entry
  let raw_content := entryRawContent entry
  let combined_raw := if raw_summary ≠ "" then raw_summary else raw_content
  let clean_summary := sanitize_summary libs.bsGetText combined_raw
  let published := resolveDate libs entry.published_parsed entry.published
  let updated := resolveDate libs entry.updated_parsed entry.updated
  let author : Option String :=
    if truthyS entry.author then entry.author
    else
      match entry.authors with
      | some (a :: _) => a.name
      | _ => entry.author
  let tags : List String :=
    match entry.tags with
    | some ts => ts.filterMap (fun t =>
        match t.term with
        | some s => if s ≠ "" then some s else none
        | none => none)
    | none => []
  { id := article_id
    title := entry.title.getD "Untitled"
    url := url
    published := published
    updated := updated
    author := author
    summary := some clean_summary
    feed_name := feed_name
    section_id := section_id
    tags := tags }

/-! ### `fetch_feed` (download/main.py, lines 195–251)

The network interaction and `feedparser.parse` are collaborators; one
`fetch_feed` call observes exactly one `FetchOutcome`:
* `transportError` — an `httpx.RequestError` (DNS/connect/timeout) or any
  other exception raised before a response exists (the two trailing
  `except` arms, both of which record `str(e)`);
* `httpResponse status doc` — a response was obtained; `raise_for_status`
  raises `HTTPStatusError` exactly on a non-2xx code, and `doc` is what
  `feedparser.parse` recovered from the body. -/

structure ParsedDoc where
  bozo : Bool := false
  bozo_exception : String := ""
  entries : List Entry := []
  title : Option String := none
  description : Option String := none
  subtitle : Option String := none
  link : Option String := none

inductive FetchOutcome where
  | transportError (msg : String)
  | httpResponse (status : Nat) (doc : ParsedDoc)

/-- `httpx.Response.raise_for_status` passes exactly on 2xx. -/
def is2xx (status : Nat) : Bool :=
  200 ≤ status && status < 300

/-- `fetch_feed`.  `parseEntry` wraps `parse_feed_entry` together with its
per-entry `try/except` (lines 231–236): `none` means the entry raised and
is skipped with a warning.  `now` is the clock value read at line 239. -/
def fetch_feed (sha16 : String → String) (parseEntry : Entry → Option Article)
    (now : DateTime) (feed_url feed_name section_id : String)
    (outcome : FetchOutcome) : Feed :=
  let feed : Feed :=
    { id := sha16 feed_url
      name := feed_name
      url := feed_url
      section_id := section_id }
  match outcome with
  | .transportError msg =>
    { feed with fetch_status := "error", fetch_error := some msg }
  | .httpResponse status doc =>
    if ¬ is2xx status then
      { feed with fetch_status := "error"
                  fetch_error := some ("HTTP " ++ toString status) }
    else if doc.bozo && doc.entries.isEmpty then
      { feed with fetch_status := "error", fetch_error := some doc.bozo_exception }
    else
      { feed with
        title := doc.title
        description := pyOrOpt doc.description doc.subtitle
        link := doc.link
        articles := doc.entries.filterMap parseEntry
        fetch_status := "success"
        fetched_at := some now }

/-! ### `download_feeds` (download/main.py, lines 254–295)

`asyncio.gather` starts one task per enabled feed and collects each
result into the slot of the task that produced it; tasks complete in an
arbitrary order (`completion`), and `gatherRun` models the collection:
slot `i` is written when task `i` completes.  `gatherOut` reads the slots
out in index order, which is what `asyncio.gather` returns. -/

def gatherRun (tasks : List Feed) (completion : List Nat) : List (Option Feed) :=
  completion.foldl
    (fun acc i =>
      match tasks[i]? with
      | some t => acc.set i (some t)
      | none => acc)
    (List.replicate tasks.length none)

def gatherOut (tasks : List Feed) (completion : List Nat) : List Feed :=
  (gatherRun tasks completion).filterMap id

/-- `download_feeds`.  `fetchRes sid fc` is the `Feed` value produced by
the (already awaited) `fetch_feed` task for feed config `fc` of section
`sid`; `completion sid` is the order in which that section's concurrent
fetches completed; `now` is the `FeedData(step="download")` creation
stamp.  A section whose enabled-feed list is empty is skipped by the
`continue` at line 274 before it is appended. -/
def download_feeds (fetchRes : String → FeedConfig → Feed) (now : DateTime)
    (completion : String → List Nat) (cfg : NoctuaConfig) : FeedData :=
  { sections := (get_enabled_sections cfg).filterMap (fun p =>
      let enabled_feeds := get_enabled_feeds cfg p.1
      if enabled_feeds.isEmpty then none
      else
        some
          { id := p.1
            name := p.2.name
            description := p.2.description
            icon := p.2.icon
            feeds := gatherOut (enabled_feeds.map (fetchRes p.1)) (completion p.1) })
    processed_at := now
    step := "download" }

/-! ## Helper lemmas -/

/-- No filter reason produced by the policy pass collides with the
deduplication reasons (they differ in their first characters /
in length). -/
theorem contains_reason_ne_dup (kw s : String)
    (hs : s = "Duplicate URL" ∨ s = "Duplicate title") :
    ("Contains excluded keyword: " ++ kw) ≠ s := by
  rcases hs with rfl | rfl <;>
  · intro h
    have h2 := congrArg String.data h
    rw [String.data_append] at h2
    simp at h2

theorem age_reason_ne_dup (x y : Int) (s : String)
    (hs : s = "Duplicate URL" ∨ s = "Duplicate title") :
    ageReason x y ≠ s := by
  rcases hs with rfl | rfl <;>
  · intro h
    have h2 := congrArg String.data h
    simp only [ageReason, String.data_append] at h2
    simp at h2

theorem missing_reason_ne_dup (s : String)
    (hs : s = "Duplicate URL" ∨ s = "Duplicate title") :
    "Missing required keywords" ≠ s := by
  rcases hs with rfl | rfl <;> decide

/-- `check_keywords` returns one of three shapes. -/
theorem check_keywords_cases (text : String) (ex req : List String) :
    check_keywords text ex req = (true, none) ∨
    (∃ kw, check_keywords text ex req = (false, some ("Contains excluded keyword: " ++ kw))) ∨
    check_keywords text ex req = (false, some "Missing required keywords") := by
  unfold check_keywords
  rcases hfind : findExcluded ex (lowerChars text) with _ | kw
  · by_cases hreq : req ≠ []
    · by_cases hany : req.any fun kw => containsSub (lowerChars kw) (lowerChars text)
      · left; simp [hreq, hany]
      · right; right; simp [hreq, hany]
    · left; simp [hreq]
  · right; left; exact ⟨kw, by simp⟩

/-- The reason recorded by the keyword half of `filter_article`. -/
theorem filterArticleKeywords_reason_cases (f : GlobalFilters) (a : Article) :
    (filterArticleKeywords f a).filter_reason = a.filter_reason ∨
    (∃ kw, (filterArticleKeywords f a).filter_reason
      = some ("Contains excluded keyword: " ++ kw)) ∨
    (filterArticleKeywords f a).filter_reason = some "Missing required keywords" := by
  rcases check_keywords_cases (a.title ++ " " ++ pyStrOpt a.summary)
      f.exclude_keywords f.require_keywords with h | ⟨kw, h⟩ | h
  · left; unfold filterArticleKeywords; rw [h]
  · right; left; exact ⟨kw, by unfold filterArticleKeywords; rw [h]⟩
  · right; right; unfold filterArticleKeywords; rw [h]

/-- The policy pass never records a deduplication reason: if the input
article's reason is not a dedup reason, neither is the output's. -/
theorem filter_article_reason_not_dup (f : GlobalFilters) (now : DateTime) (a : Article)
    (ha : ∀ s, a.filter_reason = some s → s ≠ "Duplicate URL" ∧ s ≠ "Duplicate title") :
    ∀ s, (filter_article f now a).filter_reason = some s →
      s ≠ "Duplicate URL" ∧ s ≠ "Duplicate title" := by
  intro s hres
  have keywordCase :
      (filterArticleKeywords f a).filter_reason = some s →
      s ≠ "Duplicate URL" ∧ s ≠ "Duplicate title" := by
    intro hkw
    rcases filterArticleKeywords_reason_cases f a with h | ⟨kw, h⟩ | h
    · exact ha s (h ▸ hkw)
    · rw [h] at hkw
      simp only [Option.some.injEq] at hkw
      subst hkw
      exact ⟨contains_reason_ne_dup _ _ (Or.inl rfl), contains_reason_ne_dup _ _ (Or.inr rfl)⟩
    · rw [h] at hkw
      simp only [Option.some.injEq] at hkw
      subst hkw
      exact ⟨missing_reason_ne_dup _ (Or.inl rfl), missing_reason_ne_dup _ (Or.inr rfl)⟩
  unfold filter_article at hres
  split at hres
  · split at hres
    · simp only [Option.some.injEq] at hres
      subst hres
      exact ⟨age_reason_ne_dup _ _ _ (Or.inl rfl), age_reason_ne_dup _ _ _ (Or.inr rfl)⟩
    · exact keywordCase hres
  · exact keywordCase hres

/-- The keyword loop returns exactly `List.find?` of its match predicate. -/
theorem findExcluded_eq_find? (l : List String) (t : List Char) :
    findExcluded l t = l.find? (fun kw => containsSub (lowerChars kw) t) := by
  induction l with
  | nil => rfl
  | cons kw rest ih =>
    simp only [findExcluded, List.find?_cons]
    by_cases h : containsSub (lowerChars kw) t
    · simp [h]
    · simp [h, ih]

/-- Declarative failure condition of `check_keywords`. -/
theorem check_keywords_fails_iff (text : String) (ex req : List String) :
    (check_keywords text ex req).1 = false ↔
      (∃ kw ∈ ex, containsSub (lowerChars kw) (lowerChars text) = true) ∨
      (req ≠ [] ∧ ∀ kw ∈ req, ¬ containsSub (lowerChars kw) (lowerChars text) = true) := by
  unfold check_keywords
  rw [findExcluded_eq_find?]
  rcases hfind : ex.find? (fun kw => containsSub (lowerChars kw) (lowerChars text))
      with _ | kw
  · have hnone : ∀ kw ∈ ex, ¬ containsSub (lowerChars kw) (lowerChars text) = true := by
      simpa using List.find?_eq_none.mp hfind
    by_cases hreq : req ≠ []
    · by_cases hany : req.any fun kw => containsSub (lowerChars kw) (lowerChars text)
      · rw [if_pos hreq, if_pos hany]
        constructor
        · intro h; exact Bool.noConfusion h
        · rintro (⟨kw, hmem, hc⟩ | ⟨_, hall⟩)
          · exact absurd hc (hnone kw hmem)
          · obtain ⟨kw, hmem, hc⟩ := List.any_eq_true.mp hany
            exact absurd hc (hall kw hmem)
      · rw [if_pos hreq, if_neg hany]
        constructor
        · intro _
          exact Or.inr ⟨hreq, fun kw hmem hc => hany (List.any_eq_true.mpr ⟨kw, hmem, hc⟩)⟩
        · intro _; rfl
    · rw [if_neg hreq]
      constructor
      · intro h; exact Bool.noConfusion h
      · rintro (⟨kw, hmem, hc⟩ | ⟨hr, _⟩)
        · exact absurd hc (hnone kw hmem)
        · exact absurd hr hreq
  · constructor
    · intro _
      refine Or.inl ⟨kw, List.mem_of_find?_eq_some hfind, ?_⟩
      simpa using List.find?_some hfind
    · intro _; rfl

/-- The reason recorded by `check_keywords`: the first matching excluded
keyword wins; otherwise the missing-required reason exactly when required
keywords exist and none matches. -/
theorem check_keywords_reason_eq (text : String) (ex req : List String) :
    (check_keywords text ex req).2 =
      (match ex.find? (fun kw => containsSub (lowerChars kw) (lowerChars text)) with
       | some kw => some ("Contains excluded keyword: " ++ kw)
       | none =>
         if req ≠ [] ∧ ¬ (req.any fun kw => containsSub (lowerChars kw) (lowerChars text)) = true
         then some "Missing required keywords"
         else none) := by
  unfold check_keywords
  rw [findExcluded_eq_find?]
  rcases hfind : ex.find? (fun kw => containsSub (lowerChars kw) (lowerChars text))
      with _ | kw
  · by_cases hreq : req ≠ []
    · by_cases hany : req.any fun kw => containsSub (lowerChars kw) (lowerChars text)
      · rw [if_pos hreq, if_pos hany, if_neg (by simp [hany])]
      · rw [if_pos hreq, if_neg hany, if_pos ⟨hreq, hany⟩]
    · rw [if_neg hreq, if_neg (by simp [hreq])]
  · rfl

/-- Outcome of the keyword half of `filter_article` on a fresh article. -/
theorem filterArticleKeywords_spec (f : GlobalFilters) (a : Article)
    (hflag : a.is_filtered = false) (hreason : a.filter_reason = none) :
    (filterArticleKeywords f a).is_filtered
      = !(check_keywords (a.title ++ " " ++ pyStrOpt a.summary)
          f.exclude_keywords f.require_keywords).1 ∧
    (filterArticleKeywords f a).filter_reason
      = (check_keywords (a.title ++ " " ++ pyStrOpt a.summary)
          f.exclude_keywords f.require_keywords).2 := by
  rcases check_keywords_cases (a.title ++ " " ++ pyStrOpt a.summary)
      f.exclude_keywords f.require_keywords with h | ⟨kw, h⟩ | h <;>
    unfold filterArticleKeywords <;> rw [h] <;>
    exact ⟨by simp [hflag], by simp [hreason]⟩

/-! ## Claim C1 -/

/-- C1: the policy pass on a single article.
* If the article has a publish time and its age exceeds the effective
  `max_age_hours`, it is flagged with the age-based reason, and no
  keyword check is performed — the result is independent of both keyword
  lists, so exactly the one age reason is recorded.
* Otherwise (no publish time, or age within bounds) the article is
  flagged iff its title+summary text contains some excluded keyword
  (case-insensitive substring) or `require_keywords` is non-empty and
  none of them occurs (OR semantics), and the recorded reason names the
  first matching excluded keyword (short-circuit), else the
  missing-required-keywords reason, else stays `none`. -/
theorem article_policy_pass (f : GlobalFilters) (now : DateTime) (a : Article)
    (hflag : a.is_filtered = false) (hreason : a.filter_reason = none) :
    (∀ pub, a.published = some pub → ageSec now pub > f.max_age_hours * 3600 →
      (filter_article f now a =
        { a with is_filtered := true
                 filter_reason := some (ageReason (ageSec now pub / 3600) f.max_age_hours) } ∧
       ∀ ex req,
        filter_article { f with exclude_keywords := ex, require_keywords := req } now a
          = filter_article f now a)) ∧
    ((∀ pub, a.published = some pub → ageSec now pub ≤ f.max_age_hours * 3600) →
      (((filter_article f now a).is_filtered = true ↔
        (∃ kw ∈ f.exclude_keywords, containsSub (lowerChars kw)
          (lowerChars (a.title ++ " " ++ pyStrOpt a.summary)) = true) ∨
        (f.require_keywords ≠ [] ∧ ∀ kw ∈ f.require_keywords,
          ¬ containsSub (lowerChars kw)
            (lowerChars (a.title ++ " " ++ pyStrOpt a.summary)) = true)) ∧
       (filter_article f now a).filter_reason =
        (match f.exclude_keywords.find? (fun kw => containsSub (lowerChars kw)
            (lowerChars (a.title ++ " " ++ pyStrOpt a.summary))) with
         | some kw => some ("Contains excluded keyword: " ++ kw)
         | none =>
           if f.require_keywords ≠ [] ∧
               ¬ (f.require_keywords.any fun kw => containsSub (lowerChars kw)
                 (lowerChars (a.title ++ " " ++ pyStrOpt a.summary))) = true
           then some "Missing required keywords"
           else none))) := by
  constructor
  · intro pub hpub hage
    have hred : filter_article f now a =
        { a with is_filtered := true
                 filter_reason := some (ageReason (ageSec now pub / 3600) f.max_age_hours) } := by
      unfold filter_article
      rw [hpub]
      exact if_pos hage
    refine ⟨hred, fun ex req => ?_⟩
    have hred2 : filter_article { f with exclude_keywords := ex, require_keywords := req } now a =
        { a with is_filtered := true
                 filter_reason := some (ageReason (ageSec now pub / 3600) f.max_age_hours) } := by
      unfold filter_article
      rw [hpub]
      exact if_pos hage
    rw [hred, hred2]
  · intro hfresh
    have hred : filter_article f now a = filterArticleKeywords f a := by
      rcases hpub : a.published with _ | pub
      · unfold filter_article
        rw [hpub]
      · have hage : ¬ ageSec now pub > f.max_age_hours * 3600 :=
          not_lt.mpr (hfresh pub hpub)
        unfold filter_article
        rw [hpub]
        exact if_neg hage
    obtain ⟨h1, h2⟩ := filterArticleKeywords_spec f a hflag hreason
    rw [hred]
    constructor
    · rw [h1, Bool.not_eq_true']
      exact check_keywords_fails_iff (a.title ++ " " ++ pyStrOpt a.summary)
        f.exclude_keywords f.require_keywords
    · rw [h2]
      exact check_keywords_reason_eq (a.title ++ " " ++ pyStrOpt a.summary)
        f.exclude_keywords f.require_keywords

/-- A concrete stale article: published 2026-01-01, 216 hours before the
reference clock 2026-01-10. -/
def sampleOldArticle : Article :=
  { id := "a1"
    title := "Sponsored: deal of the day"
    url := "https://x.com/a"
    published := some ⟨2026, 1, 1, 0, 0, 0⟩
    summary := some "some content" }

theorem article_policy_pass_witness :
    filter_article { max_age_hours := 72 } ⟨2026, 1, 10, 0, 0, 0⟩ sampleOldArticle
      = { sampleOldArticle with
          is_filtered := true
          filter_reason := some (ageReason 216 72) } :=
  ((article_policy_pass { max_age_hours := 72 } ⟨2026, 1, 10, 0, 0, 0⟩ sampleOldArticle
    rfl rfl).1 ⟨2026, 1, 1, 0, 0, 0⟩ rfl (by decide)).1

/-! ## Claim C10 -/

/-- C10: `sanitize_summary` is a total function of its input (it never
raises — in the embedding every Python `raise` inside the `try:` block is
a `none` from the collaborator `bsGetText`), and whenever the underlying
markup parser fails unrecoverably (`bsGetText text = none`) the original
input string is returned unmodified. -/
theorem sanitize_summary_never_raises_and_falls_back
    (bsGetText : String → Option String) (text : String)
    (h : bsGetText text = none) :
    sanitize_summary bsGetText text = text := by
  unfold sanitize_summary
  by_cases he : text = ""
  · subst he; simp
  · simp [he, h]

theorem sanitize_summary_never_raises_and_falls_back_witness :
    sanitize_summary (fun _ => none) "<div><p>broken <b" = "<div><p>broken <b" :=
  sanitize_summary_never_raises_and_falls_back (fun _ => none) "<div><p>broken <b" rfl

/-! ## Claims C3 and C7 (`fetch_feed`) -/

/-- C3: `fetch_feed` always returns a `Feed` value (it is a total
function — no exception escapes past this boundary), and:
* on a transport-level failure the Feed has `fetch_status = "error"` and
  the exception's message as `fetch_error`;
* on a non-2xx response, `fetch_status = "error"` with the human-readable
  `fetch_error` `"HTTP <status>"`;
* on a 2xx response whose body yields zero entries and is flagged
  malformed by the parser (`bozo`), `fetch_status = "error"` with the
  parser's diagnostic as `fetch_error`;
* otherwise `fetch_status = "success"`, the feed metadata (title,
  description falling back to subtitle, link) is populated and
  `fetched_at` is stamped. -/
theorem fetch_feed_outcome_classification (sha16 : String → String)
    (parseEntry : Entry → Option Article) (now : DateTime)
    (feed_url feed_name section_id : String) (outcome : FetchOutcome) :
    (∀ msg, outcome = .transportError msg →
      (fetch_feed sha16 parseEntry now feed_url feed_name section_id outcome).fetch_status
        = "error" ∧
      (fetch_feed sha16 parseEntry now feed_url feed_name section_id outcome).fetch_error
        = some msg) ∧
    (∀ status doc, outcome = .httpResponse status doc → is2xx status = false →
      (fetch_feed sha16 parseEntry now feed_url feed_name section_id outcome).fetch_status
        = "error" ∧
      (fetch_feed sha16 parseEntry now feed_url feed_name section_id outcome).fetch_error
        = some ("HTTP " ++ toString status)) ∧
    (∀ status doc, outcome = .httpResponse status doc → is2xx status = true →
      doc.bozo = true → doc.entries = [] →
      (fetch_feed sha16 parseEntry now feed_url feed_name section_id outcome).fetch_status
        = "error" ∧
      (fetch_feed sha16 parseEntry now feed_url feed_name section_id outcome).fetch_error
        = some doc.bozo_exception) ∧
    (∀ status doc, outcome = .httpResponse status doc → is2xx status = true →
      (doc.bozo = false ∨ doc.entries ≠ []) →
      (fetch_feed sha16 parseEntry now feed_url feed_name section_id outcome).fetch_status
        = "success" ∧
      (fetch_feed sha16 parseEntry now feed_url feed_name section_id outcome).fetched_at
        = some now ∧
      (fetch_feed sha16 parseEntry now feed_url feed_name section_id outcome).title
        = doc.title ∧
      (fetch_feed sha16 parseEntry now feed_url feed_name section_id outcome).description
        = pyOrOpt doc.description doc.subtitle ∧
      (fetch_feed sha16 parseEntry now feed_url feed_name section_id outcome).link
        = doc.link ∧
      (fetch_feed sha16 parseEntry now feed_url feed_name section_id outcome).articles
        = doc.entries.filterMap parseEntry) := by
  refine ⟨?_, ?_, ?_, ?_⟩
  · rintro msg rfl
    simp [fetch_feed]
  · rintro status doc rfl h2
    simp [fetch_feed, h2]
  · rintro status doc rfl h2 hbozo hempty
    simp [fetch_feed, h2, hbozo, hempty]
  · rintro status doc rfl h2 hok
    have hcond : (doc.bozo && doc.entries.isEmpty) = false := by
      rcases hok with h | h
      · simp [h]
      · simp [List.isEmpty_iff, h]
    simp [fetch_feed, h2, hcond]

theorem fetch_feed_outcome_classification_witness :
    (fetch_feed (fun _ => "f0") (fun _ => none) ⟨2026, 1, 10, 0, 0, 0⟩
        "http://e.com/rss" "E" "s" (.transportError "timed out")).fetch_status = "error" ∧
    (fetch_feed (fun _ => "f0") (fun _ => none) ⟨2026, 1, 10, 0, 0, 0⟩
        "http://e.com/rss" "E" "s" (.transportError "timed out")).fetch_error
      = some "timed out" ∧
    (fetch_feed (fun _ => "f0") (fun _ => none) ⟨2026, 1, 10, 0, 0, 0⟩
        "http://e.com/rss" "E" "s" (.httpResponse 404 {})).fetch_error
      = some "HTTP 404" ∧
    (fetch_feed (fun _ => "f0") (fun _ => none) ⟨2026, 1, 10, 0, 0, 0⟩
        "http://e.com/rss" "E" "s"
        (.httpResponse 200 { bozo := true, bozo_exception := "not well-formed" })).fetch_error
      = some "not well-formed" ∧
    (fetch_feed (fun _ => "f0") (fun _ => none) ⟨2026, 1, 10, 0, 0, 0⟩
        "http://e.com/rss" "E" "s"
        (.httpResponse 200 { entries := [{}] })).fetch_status = "success" := by
  refine ⟨?_, ?_, ?_, ?_, ?_⟩
  · exact ((fetch_feed_outcome_classification (fun _ => "f0") (fun _ => none)
      ⟨2026, 1, 10, 0, 0, 0⟩ "http://e.com/rss" "E" "s"
      (.transportError "timed out")).1 "timed out" rfl).1
  · exact ((fetch_feed_outcome_classification (fun _ => "f0") (fun _ => none)
      ⟨2026, 1, 10, 0, 0, 0⟩ "http://e.com/rss" "E" "s"
      (.transportError "timed out")).1 "timed out" rfl).2
  · exact ((fetch_feed_outcome_classification (fun _ => "f0") (fun _ => none)
      ⟨2026, 1, 10, 0, 0, 0⟩ "http://e.com/rss" "E" "s"
      (.httpResponse 404 {})).2.1 404 {} rfl (by decide)).2
  · exact ((fetch_feed_outcome_classification (fun _ => "f0") (fun _ => none)
      ⟨2026, 1, 10, 0, 0, 0⟩ "http://e.com/rss" "E" "s"
      (.httpResponse 200 { bozo := true, bozo_exception := "not well-formed" })).2.2.1
      200 _ rfl (by decide) rfl rfl).2
  · exact ((fetch_feed_outcome_classification (fun _ => "f0") (fun _ => none)
      ⟨2026, 1, 10, 0, 0, 0⟩ "http://e.com/rss" "E" "s"
      (.httpResponse 200 { entries := [{}] })).2.2.2
      200 _ rfl (by decide) (Or.inr (by simp))).1

/-- C7: for every `Feed` value returned by the fetch stage,
`fetch_status = "error"` implies its article sequence is empty. -/
theorem fetch_feed_error_implies_no_articles (sha16 : String → String)
    (parseEntry : Entry → Option Article) (now : DateTime)
    (feed_url feed_name section_id : String) (outcome : FetchOutcome)
    (h : (fetch_feed sha16 parseEntry now feed_url feed_name section_id outcome).fetch_status
      = "error") :
    (fetch_feed sha16 parseEntry now feed_url feed_name section_id outcome).articles = [] := by
  cases outcome with
  | transportError msg => simp [fetch_feed]
  | httpResponse status doc =>
    by_cases h2 : is2xx status
    · by_cases h3 : doc.bozo && doc.entries.isEmpty
      · simp [fetch_feed, h2, h3]
      · exfalso
        simp [fetch_feed, h2, h3] at h
    · simp [fetch_feed, h2]

theorem fetch_feed_error_implies_no_articles_witness :
    (fetch_feed (fun _ => "f0") (fun _ => none) ⟨2026, 1, 10, 0, 0, 0⟩
      "http://e.com/rss" "E" "s" (.httpResponse 500 {})).articles = [] :=
  fetch_feed_error_implies_no_articles (fun _ => "f0") (fun _ => none)
    ⟨2026, 1, 10, 0, 0, 0⟩ "http://e.com/rss" "E" "s" (.httpResponse 500 {}) rfl

/-! ## Claim C2 (deduplication) -/

/-- The article at position `i` carries the URL-duplicate flag. -/
def dupUrlAt (l : List Article) (i : Nat) : Prop :=
  ∃ b, l[i]? = some b ∧ b.filter_reason = some "Duplicate URL"

/-- The article at position `i` carries the title-duplicate flag. -/
def dupTitleAt (l : List Article) (i : Nat) : Prop :=
  ∃ b, l[i]? = some b ∧ b.filter_reason = some "Duplicate title"

/-- The article at position `i` was not flagged as a duplicate (it
registered its keys during the scan). -/
def keptAt (l : List Article) (i : Nat) : Prop :=
  ∃ b, l[i]? = some b ∧ b.filter_reason ≠ some "Duplicate URL" ∧
    b.filter_reason ≠ some "Duplicate title"

theorem dupUrlAt_cons_zero (b : Article) (l : List Article) :
    dupUrlAt (b :: l) 0 ↔ b.filter_reason = some "Duplicate URL" := by
  simp [dupUrlAt]

theorem dupUrlAt_cons_succ (b : Article) (l : List Article) (i : Nat) :
    dupUrlAt (b :: l) (i + 1) ↔ dupUrlAt l i := by
  simp [dupUrlAt]

theorem dupTitleAt_cons_zero (b : Article) (l : List Article) :
    dupTitleAt (b :: l) 0 ↔ b.filter_reason = some "Duplicate title" := by
  simp [dupTitleAt]

theorem dupTitleAt_cons_succ (b : Article) (l : List Article) (i : Nat) :
    dupTitleAt (b :: l) (i + 1) ↔ dupTitleAt l i := by
  simp [dupTitleAt]

theorem keptAt_cons_zero (b : Article) (l : List Article) :
    keptAt (b :: l) 0 ↔ (b.filter_reason ≠ some "Duplicate URL" ∧
      b.filter_reason ≠ some "Duplicate title") := by
  simp [keptAt]

theorem keptAt_cons_succ (b : Article) (l : List Article) (i : Nat) :
    keptAt (b :: l) (i + 1) ↔ keptAt l i := by
  simp [keptAt]

/-- Shift an earlier-index existential across a cons cell. -/
theorem exists_earlier_shift (a : Article) (rest : List Article) (i : Nat)
    (Q : Nat → Article → Prop) :
    (∃ j, j < i + 1 ∧ ∃ aj, (a :: rest)[j]? = some aj ∧ Q j aj) ↔
    (Q 0 a ∨ ∃ j, j < i ∧ ∃ aj, rest[j]? = some aj ∧ Q (j + 1) aj) := by
  constructor
  · rintro ⟨j, hj, aj, hja, hQ⟩
    cases j with
    | zero =>
      left
      simp only [List.getElem?_cons_zero, Option.some.injEq] at hja
      exact hja ▸ hQ
    | succ j' =>
      right
      exact ⟨j', by omega, aj, by simpa using hja, hQ⟩
  · rintro (hQ | ⟨j', hj', aj, hja, hQ⟩)
    · exact ⟨0, by omega, a, by simp, hQ⟩
    · exact ⟨j' + 1, by omega, aj, by simpa using hja, hQ⟩

/-- The declarative per-index description of one deduplication scan that
starts with the seen-sets `seenU`/`seenT`: position `i` is URL-flagged iff
its normalized URL was pre-seen or registered by an earlier non-duplicate
position; title-flagging is analogous and subordinate to the URL check;
non-duplicate positions pass through unchanged. -/
def DedupSpec (seenU seenT : List (List Char)) (arts out : List Article) : Prop :=
  ∀ i ai, arts[i]? = some ai →
    (dupUrlAt out i ↔ urlKey ai.url ∈ seenU ∨
      ∃ j, j < i ∧ ∃ aj, arts[j]? = some aj ∧ keptAt out j ∧
        urlKey aj.url = urlKey ai.url) ∧
    (dupTitleAt out i ↔
      ¬ (urlKey ai.url ∈ seenU ∨
        ∃ j, j < i ∧ ∃ aj, arts[j]? = some aj ∧ keptAt out j ∧
          urlKey aj.url = urlKey ai.url) ∧
      (titleKey ai.title ∈ seenT ∨
        ∃ j, j < i ∧ ∃ aj, arts[j]? = some aj ∧ keptAt out j ∧
          titleKey aj.title = titleKey ai.title)) ∧
    (keptAt out i → out[i]? = some ai)

theorem dedupGo_spec (arts : List Article) :
    ∀ seenU seenT,
      (∀ a ∈ arts, a.filter_reason ≠ some "Duplicate URL" ∧
        a.filter_reason ≠ some "Duplicate title") →
      DedupSpec seenU seenT arts (dedupGo seenU seenT arts) := by
  induction arts with
  | nil =>
    intro seenU seenT _ i ai hai
    simp at hai
  | cons a rest ih =>
    intro seenU seenT hclean
    have hcleanHead := hclean a (by simp)
    have hcleanRest : ∀ b ∈ rest, b.filter_reason ≠ some "Duplicate URL" ∧
        b.filter_reason ≠ some "Duplicate title" := fun b hb => hclean b (by simp [hb])
    by_cases hu : urlKey a.url ∈ seenU
    · have hout : dedupGo seenU seenT (a :: rest) =
          { a with is_filtered := true, filter_reason := some "Duplicate URL" }
            :: dedupGo seenU seenT rest := by
        simp only [dedupGo]; rw [if_pos hu]
      intro i ai hai
      rw [hout]
      have hnk : ¬ keptAt ({ a with is_filtered := true, filter_reason := some "Duplicate URL" }
          :: dedupGo seenU seenT rest) 0 := by
        rw [keptAt_cons_zero]
        rintro ⟨h1, _⟩
        exact h1 rfl
      cases i with
      | zero =>
        simp only [List.getElem?_cons_zero, Option.some.injEq] at hai
        subst hai
        refine ⟨?_, ?_, ?_⟩
        · rw [dupUrlAt_cons_zero]
          exact ⟨fun _ => Or.inl hu, fun _ => rfl⟩
        · rw [dupTitleAt_cons_zero]
          constructor
          · intro h; simp at h
          · rintro ⟨hn, _⟩; exact absurd (Or.inl hu) hn
        · intro hk; exact absurd hk hnk
      | succ i' =>
        simp only [List.getElem?_cons_succ] at hai
        obtain ⟨h1, h2, h3⟩ := ih seenU seenT hcleanRest i' ai hai
        refine ⟨?_, ?_, ?_⟩
        · rw [dupUrlAt_cons_succ, h1, exists_earlier_shift]
          simp only [keptAt_cons_succ]
          constructor
          · rintro (h | ⟨j, hj, aj, hja, hk, he⟩)
            · exact Or.inl h
            · exact Or.inr (Or.inr ⟨j, hj, aj, hja, hk, he⟩)
          · rintro (h | ⟨hk0, _⟩ | ⟨j, hj, aj, hja, hk, he⟩)
            · exact Or.inl h
            · exact absurd hk0 hnk
            · exact Or.inr ⟨j, hj, aj, hja, hk, he⟩
        · rw [dupTitleAt_cons_succ, h2, exists_earlier_shift, exists_earlier_shift]
          simp only [keptAt_cons_succ]
          constructor
          · rintro ⟨hnu, ht⟩
            constructor
            · rintro (h | ⟨hk0, _⟩ | ⟨j, hj, aj, hja, hk, he⟩)
              · exact hnu (Or.inl h)
              · exact absurd hk0 hnk
              · exact hnu (Or.inr ⟨j, hj, aj, hja, hk, he⟩)
            · rcases ht with h | ⟨j, hj, aj, hja, hk, he⟩
              · exact Or.inl h
              · exact Or.inr (Or.inr ⟨j, hj, aj, hja, hk, he⟩)
          · rintro ⟨hnu, ht⟩
            constructor
            · rintro (h | ⟨j, hj, aj, hja, hk, he⟩)
              · exact hnu (Or.inl h)
              · exact hnu (Or.inr (Or.inr ⟨j, hj, aj, hja, hk, he⟩))
            · rcases ht with h | (⟨hk0, _⟩ | ⟨j, hj, aj, hja, hk, he⟩)
              · exact Or.inl h
              · exact absurd hk0 hnk
              · exact Or.inr ⟨j, hj, aj, hja, hk, he⟩
        · rw [keptAt_cons_succ]
          intro hk
          simp only [List.getElem?_cons_succ]
          exact h3 hk
    · by_cases ht : titleKey a.title ∈ seenT
      · have hout : dedupGo seenU seenT (a :: rest) =
            { a with is_filtered := true, filter_reason := some "Duplicate title" }
              :: dedupGo seenU seenT rest := by
          simp only [dedupGo]; rw [if_neg hu, if_pos ht]
        intro i ai hai
        rw [hout]
        have hnk : ¬ keptAt ({ a with is_filtered := true, filter_reason := some "Duplicate title" }
            :: dedupGo seenU seenT rest) 0 := by
          rw [keptAt_cons_zero]
          rintro ⟨_, h2⟩
          exact h2 rfl
        cases i with
        | zero =>
          simp only [List.getElem?_cons_zero, Option.some.injEq] at hai
          subst hai
          refine ⟨?_, ?_, ?_⟩
          · rw [dupUrlAt_cons_zero]
            constructor
            · intro h; simp at h
            · rintro (h | ⟨j, hj, _⟩)
              · exact absurd h hu
              · omega
          · rw [dupTitleAt_cons_zero]
            constructor
            · intro _
              refine ⟨?_, Or.inl ht⟩
              rintro (h | ⟨j, hj, _⟩)
              · exact hu h
              · omega
            · intro _; rfl
          · intro hk; exact absurd hk hnk
        | succ i' =>
          simp only [List.getElem?_cons_succ] at hai
          obtain ⟨h1, h2, h3⟩ := ih seenU seenT hcleanRest i' ai hai
          refine ⟨?_, ?_, ?_⟩
          · rw [dupUrlAt_cons_succ, h1, exists_earlier_shift]
            simp only [keptAt_cons_succ]
            constructor
            · rintro (h | ⟨j, hj, aj, hja, hk, he⟩)
              · exact Or.inl h
              · exact Or.inr (Or.inr ⟨j, hj, aj, hja, hk, he⟩)
            · rintro (h | ⟨hk0, _⟩ | ⟨j, hj, aj, hja, hk, he⟩)
              · exact Or.inl h
              · exact absurd hk0 hnk
              · exact Or.inr ⟨j, hj, aj, hja, hk, he⟩
          · rw [dupTitleAt_cons_succ, h2, exists_earlier_shift, exists_earlier_shift]
            simp only [keptAt_cons_succ]
            constructor
            · rintro ⟨hnu, hti⟩
              constructor
              · rintro (h | ⟨hk0, _⟩ | ⟨j, hj, aj, hja, hk, he⟩)
                · exact hnu (Or.inl h)
                · exact absurd hk0 hnk
                · exact hnu (Or.inr ⟨j, hj, aj, hja, hk, he⟩)
              · rcases hti with h | ⟨j, hj, aj, hja, hk, he⟩
                · exact Or.inl h
                · exact Or.inr (Or.inr ⟨j, hj, aj, hja, hk, he⟩)
            · rintro ⟨hnu, hti⟩
              constructor
              · rintro (h | ⟨j, hj, aj, hja, hk, he⟩)
                · exact hnu (Or.inl h)
                · exact hnu (Or.inr (Or.inr ⟨j, hj, aj, hja, hk, he⟩))
              · rcases hti with h | (⟨hk0, _⟩ | ⟨j, hj, aj, hja, hk, he⟩)
                · exact Or.inl h
                · exact absurd hk0 hnk
                · exact Or.inr ⟨j, hj, aj, hja, hk, he⟩
          · rw [keptAt_cons_succ]
            intro hk
            simp only [List.getElem?_cons_succ]
            exact h3 hk
      · have hout : dedupGo seenU seenT (a :: rest) =
            a :: dedupGo (urlKey a.url :: seenU) (titleKey a.title :: seenT) rest := by
          simp only [dedupGo]; rw [if_neg hu, if_neg ht]
        intro i ai hai
        rw [hout]
        have hk0 : keptAt (a :: dedupGo (urlKey a.url :: seenU)
            (titleKey a.title :: seenT) rest) 0 := by
          rw [keptAt_cons_zero]
          exact hcleanHead
        cases i with
        | zero =>
          simp only [List.getElem?_cons_zero, Option.some.injEq] at hai
          subst hai
          refine ⟨?_, ?_, ?_⟩
          · rw [dupUrlAt_cons_zero]
            constructor
            · intro h; exact absurd h hcleanHead.1
            · rintro (h | ⟨j, hj, _⟩)
              · exact absurd h hu
              · omega
          · rw [dupTitleAt_cons_zero]
            constructor
            · intro h; exact absurd h hcleanHead.2
            · rintro ⟨_, h | ⟨j, hj, _⟩⟩
              · exact absurd h ht
              · omega
          · intro _
            simp
        | succ i' =>
          simp only [List.getElem?_cons_succ] at hai
          obtain ⟨h1, h2, h3⟩ := ih (urlKey a.url :: seenU) (titleKey a.title :: seenT)
            hcleanRest i' ai hai
          have hurliff : (urlKey ai.url ∈ urlKey a.url :: seenU ∨
              ∃ j, j < i' ∧ ∃ aj, rest[j]? = some aj ∧
                keptAt (dedupGo (urlKey a.url :: seenU) (titleKey a.title :: seenT) rest) j ∧
                urlKey aj.url = urlKey ai.url) ↔
              (urlKey ai.url ∈ seenU ∨
              ∃ j, j < i' + 1 ∧ ∃ aj, (a :: rest)[j]? = some aj ∧
                keptAt (a :: dedupGo (urlKey a.url :: seenU) (titleKey a.title :: seenT) rest) j ∧
                urlKey aj.url = urlKey ai.url) := by
            rw [exists_earlier_shift]
            simp only [keptAt_cons_succ, List.mem_cons]
            constructor
            · rintro ((heq | h) | ⟨j, hj, aj, hja, hk, he⟩)
              · exact Or.inr (Or.inl ⟨hk0, heq.symm⟩)
              · exact Or.inl h
              · exact Or.inr (Or.inr ⟨j, hj, aj, hja, hk, he⟩)
            · rintro (h | (⟨_, heq⟩ | ⟨j, hj, aj, hja, hk, he⟩))
              · exact Or.inl (Or.inr h)
              · exact Or.inl (Or.inl heq.symm)
              · exact Or.inr ⟨j, hj, aj, hja, hk, he⟩
          have htitiff : (titleKey ai.title ∈ titleKey a.title :: seenT ∨
              ∃ j, j < i' ∧ ∃ aj, rest[j]? = some aj ∧
                keptAt (dedupGo (urlKey a.url :: seenU) (titleKey a.title :: seenT) rest) j ∧
                titleKey aj.title = titleKey ai.title) ↔
              (titleKey ai.title ∈ seenT ∨
              ∃ j, j < i' + 1 ∧ ∃ aj, (a :: rest)[j]? = some aj ∧
                keptAt (a :: dedupGo (urlKey a.url :: seenU) (titleKey a.title :: seenT) rest) j ∧
                titleKey aj.title = titleKey ai.title) := by
            rw [exists_earlier_shift]
            simp only [keptAt_cons_succ, List.mem_cons]
            constructor
            · rintro ((heq | h) | ⟨j, hj, aj, hja, hk, he⟩)
              · exact Or.inr (Or.inl ⟨hk0, heq.symm⟩)
              · exact Or.inl h
              · exact Or.inr (Or.inr ⟨j, hj, aj, hja, hk, he⟩)
            · rintro (h | (⟨_, heq⟩ | ⟨j, hj, aj, hja, hk, he⟩))
              · exact Or.inl (Or.inr h)
              · exact Or.inl (Or.inl heq.symm)
              · exact Or.inr ⟨j, hj, aj, hja, hk, he⟩
          refine ⟨?_, ?_, ?_⟩
          · rw [dupUrlAt_cons_succ, h1]
            exact hurliff
          · rw [dupTitleAt_cons_succ, h2]
            exact and_congr (not_congr hurliff) htitiff
          · rw [keptAt_cons_succ]
            intro hk
            simp only [List.getElem?_cons_succ]
            exact h3 hk

/-- The scan preserves the length of the article list. -/
theorem dedupGo_length (arts : List Article) :
    ∀ seenU seenT, (dedupGo seenU seenT arts).length = arts.length := by
  induction arts with
  | nil => intro seenU seenT; rfl
  | cons a rest ih =>
    intro seenU seenT
    by_cases hu : urlKey a.url ∈ seenU
    · simp only [dedupGo]
      rw [if_pos hu]
      simp [ih]
    · by_cases ht : titleKey a.title ∈ seenT
      · simp only [dedupGo]
        rw [if_neg hu, if_pos ht]
        simp [ih]
      · simp only [dedupGo]
        rw [if_neg hu, if_neg ht]
        simp [ih]

/-- `filter_article` only ever touches the two filtering flags. -/
theorem filter_article_url_title (f : GlobalFilters) (now : DateTime) (a : Article) :
    (filter_article f now a).url = a.url ∧ (filter_article f now a).title = a.title := by
  unfold filter_article filterArticleKeywords
  constructor <;> (split <;> first | rfl | (split <;> first | rfl | (split <;> rfl)))

/-- Transport an earlier-index existential across the policy `map`
(the policy pass does not change the dedup keys). -/
theorem mapped_earlier_iff (f : GlobalFilters) (now : DateTime) (arts out : List Article)
    (key : Article → List Char) (hkey : ∀ a, key (filter_article f now a) = key a)
    (i : Nat) (k : List Char) :
    (∃ j, j < i ∧ ∃ aj, (arts.map (filter_article f now))[j]? = some aj ∧
        keptAt out j ∧ key aj = k) ↔
    (∃ j, j < i ∧ ∃ aj, arts[j]? = some aj ∧ keptAt out j ∧ key aj = k) := by
  constructor
  · rintro ⟨j, hj, aj, hja, hk, he⟩
    rw [List.getElem?_map] at hja
    rcases harts : arts[j]? with _ | a0
    · rw [harts] at hja; cases hja
    · rw [harts] at hja
      simp only [Option.map_some', Option.some.injEq] at hja
      subst hja
      exact ⟨j, hj, a0, harts, hk, by rw [← hkey a0]; exact he⟩
  · rintro ⟨j, hj, aj, hja, hk, he⟩
    refine ⟨j, hj, filter_article f now aj, ?_, hk, by rw [hkey aj]; exact he⟩
    rw [List.getElem?_map, hja]
    rfl

/-- Modelled from the claim (for refutation): the deduplication pass as
C2 states it, applied only to the articles that survived the policy pass —
an already-filtered article takes no part in the scan: it neither
registers its keys nor can it be re-flagged. -/
def dedupSurvivorsOnly (seenUrls seenTitles : List (List Char)) : List Article → List Article
  | [] => []
  | a :: rest =>
    if a.is_filtered then a :: dedupSurvivorsOnly seenUrls seenTitles rest
    else if urlKey a.url ∈ seenUrls then
      { a with is_filtered := true, filter_reason := some "Duplicate URL" }
        :: dedupSurvivorsOnly seenUrls seenTitles rest
    else if titleKey a.title ∈ seenTitles then
      { a with is_filtered := true, filter_reason := some "Duplicate title" }
        :: dedupSurvivorsOnly seenUrls seenTitles rest
    else a :: dedupSurvivorsOnly (urlKey a.url :: seenUrls)
      (titleKey a.title :: seenTitles) rest

/-- The per-feed body of the filter stage as claim C2 describes it
(policy pass, then survivors-only deduplication). -/
def claimC2Process (filters : GlobalFilters) (now : DateTime)
    (articles : List Article) : List Article :=
  dedupSurvivorsOnly [] [] (articles.map (filter_article filters now))

def cexNow : DateTime := ⟨2026, 1, 10, 0, 0, 0⟩

/-- A policy-filtered (too old) first occurrence of the URL. -/
def cexOld : Article :=
  { id := "c1", title := "alpha", url := "https://x.com/a"
    published := some ⟨2026, 1, 1, 0, 0, 0⟩ }

/-- A fresh, policy-surviving article with the same URL. -/
def cexFresh : Article :=
  { id := "c2", title := "beta", url := "https://x.com/a"
    published := some ⟨2026, 1, 10, 0, 0, 0⟩ }

/-- C2 counterexample: the code's deduplication pass is *not* applied
only to policy survivors.  With a stale article followed by a fresh one
sharing its URL, the code flags the fresh article `"Duplicate URL"`
(the policy-filtered first occurrence registered the URL key), while
under the claim's description the fresh article is the first surviving
occurrence and stays unflagged. -/
theorem dedup_survivors_only_false :
    processFeedArticles {} cexNow [cexOld, cexFresh]
      ≠ claimC2Process {} cexNow [cexOld, cexFresh] ∧
    ((processFeedArticles {} cexNow [cexOld, cexFresh])[1]?).map Article.filter_reason
      = some (some "Duplicate URL") ∧
    ((claimC2Process {} cexNow [cexOld, cexFresh])[1]?).map Article.filter_reason
      = some none := by
  have h1 : ((processFeedArticles {} cexNow [cexOld, cexFresh])[1]?).map Article.filter_reason
      = some (some "Duplicate URL") := by decide
  have h2 : ((claimC2Process {} cexNow [cexOld, cexFresh])[1]?).map Article.filter_reason
      = some none := by decide
  refine ⟨?_, h1, h2⟩
  intro h
  rw [h, h2] at h1
  simp at h1

/-- C2 (amended): within each feed the deduplication pass scans *all*
articles in sequence order — including those already flagged by the
policy pass.  Position `i` is flagged `"Duplicate URL"` iff its
normalized URL (lower-cased, trailing slashes trimmed) equals that of an
earlier position that was itself not flagged as a duplicate (only
non-duplicates register their keys; a policy-filtered non-duplicate
still registers); else it is flagged `"Duplicate title"` iff its
normalized title (punctuation stripped, whitespace collapsed,
lower-cased) matches an earlier non-duplicate; a non-duplicate position
passes the policy result through unchanged.  The list length is
preserved. -/
theorem dedup_pass_characterization (f : GlobalFilters) (now : DateTime)
    (arts : List Article)
    (hclean : ∀ a ∈ arts, a.filter_reason ≠ some "Duplicate URL" ∧
      a.filter_reason ≠ some "Duplicate title") :
    (processFeedArticles f now arts).length = arts.length ∧
    ∀ i ai, arts[i]? = some ai →
      (dupUrlAt (processFeedArticles f now arts) i ↔
        ∃ j, j < i ∧ ∃ aj, arts[j]? = some aj ∧
          keptAt (processFeedArticles f now arts) j ∧
          urlKey aj.url = urlKey ai.url) ∧
      (dupTitleAt (processFeedArticles f now arts) i ↔
        ¬ (∃ j, j < i ∧ ∃ aj, arts[j]? = some aj ∧
            keptAt (processFeedArticles f now arts) j ∧
            urlKey aj.url = urlKey ai.url) ∧
        (∃ j, j < i ∧ ∃ aj, arts[j]? = some aj ∧
          keptAt (processFeedArticles f now arts) j ∧
          titleKey aj.title = titleKey ai.title)) ∧
      (keptAt (processFeedArticles f now arts) i →
        (processFeedArticles f now arts)[i]? = some (filter_article f now ai)) := by
  have hmapclean : ∀ b ∈ arts.map (filter_article f now),
      b.filter_reason ≠ some "Duplicate URL" ∧ b.filter_reason ≠ some "Duplicate title" := by
    intro b hb
    obtain ⟨a, ha, rfl⟩ := List.mem_map.mp hb
    have hconv : ∀ s, a.filter_reason = some s →
        s ≠ "Duplicate URL" ∧ s ≠ "Duplicate title" := by
      intro s hs
      obtain ⟨hz1, hz2⟩ := hclean a ha
      constructor
      · rintro rfl; exact hz1 hs
      · rintro rfl; exact hz2 hs
    have hres := filter_article_reason_not_dup f now a hconv
    constructor
    · intro hr; exact (hres _ hr).1 rfl
    · intro hr; exact (hres _ hr).2 rfl
  have hspec := dedupGo_spec (arts.map (filter_article f now)) [] [] hmapclean
  constructor
  · unfold processFeedArticles deduplicate_articles
    rw [dedupGo_length, List.length_map]
  · intro i ai hai
    have hmi : (arts.map (filter_article f now))[i]? = some (filter_article f now ai) := by
      rw [List.getElem?_map, hai]; rfl
    obtain ⟨h1, h2, h3⟩ := hspec i (filter_article f now ai) hmi
    have hu := (filter_article_url_title f now · |>.1)
    have htl := (filter_article_url_title f now · |>.2)
    have hkeyu : ∀ a, urlKey (filter_article f now a).url = urlKey a.url := by
      intro a; rw [hu a]
    have hkeyt : ∀ a, titleKey (filter_article f now a).title = titleKey a.title := by
      intro a; rw [htl a]
    refine ⟨?_, ?_, h3⟩
    · rw [show processFeedArticles f now arts
          = dedupGo [] [] (arts.map (filter_article f now)) from rfl, h1]
      simp only [List.not_mem_nil, false_or]
      rw [hkeyu ai]
      exact mapped_earlier_iff f now arts _ (fun a => urlKey a.url) hkeyu i (urlKey ai.url)
    · rw [show processFeedArticles f now arts
          = dedupGo [] [] (arts.map (filter_article f now)) from rfl, h2]
      simp only [List.not_mem_nil, false_or]
      rw [hkeyu ai, hkeyt ai]
      exact and_congr
        (not_congr (mapped_earlier_iff f now arts _ (fun a => urlKey a.url) hkeyu i
          (urlKey ai.url)))
        (mapped_earlier_iff f now arts _ (fun a => titleKey a.title) hkeyt i
          (titleKey ai.title))

theorem dedup_pass_characterization_witness :
    dupUrlAt (processFeedArticles {} cexNow [cexOld, cexFresh]) 1 ∧
    keptAt (processFeedArticles {} cexNow [cexOld, cexFresh]) 0 := by
  have h := dedup_pass_characterization {} cexNow [cexOld, cexFresh]
    (by intro a ha; fin_cases ha <;> exact ⟨by decide, by decide⟩)
  refine ⟨((h.2 1 cexFresh rfl).1).mpr ⟨0, by omega, cexOld, rfl, ?_, by decide⟩, ?_⟩
  · have h0 := (h.2 0 cexOld rfl)
    have hnu : ¬ dupUrlAt (processFeedArticles {} cexNow [cexOld, cexFresh]) 0 := by
      rw [h0.1]
      rintro ⟨j, hj, _⟩
      omega
    have hnt : ¬ dupTitleAt (processFeedArticles {} cexNow [cexOld, cexFresh]) 0 := by
      rw [h0.2.1]
      rintro ⟨_, ⟨j, hj, _⟩⟩
      omega
    rcases hd : (processFeedArticles {} cexNow [cexOld, cexFresh])[0]? with _ | b
    · exact absurd hd (by decide)
    · refine ⟨b, hd, ?_, ?_⟩
      · intro hr; exact hnu ⟨b, hd, hr⟩
      · intro hr; exact hnt ⟨b, hd, hr⟩
  · have h0 := (h.2 0 cexOld rfl)
    have hnu : ¬ dupUrlAt (processFeedArticles {} cexNow [cexOld, cexFresh]) 0 := by
      rw [h0.1]
      rintro ⟨j, hj, _⟩
      omega
    have hnt : ¬ dupTitleAt (processFeedArticles {} cexNow [cexOld, cexFresh]) 0 := by
      rw [h0.2.1]
      rintro ⟨_, ⟨j, hj, _⟩⟩
      omega
    rcases hd : (processFeedArticles {} cexNow [cexOld, cexFresh])[0]? with _ | b
    · exact absurd hd (by decide)
    · refine ⟨b, hd, ?_, ?_⟩
      · intro hr; exact hnu ⟨b, hd, hr⟩
      · intro hr; exact hnt ⟨b, hd, hr⟩

/-! ## Claim C4 (effective filter policy) -/

/-- The filter override declared for a section (when the section exists
and carries one). -/
def sectionFilterOf (c : NoctuaConfig) (section_id : String) : Option FilterConfig :=
  (lookupSection c section_id).bind (fun sec => sec.filter)

/-- Field-wise characterisation of the section-level resolution: each key
is the section override's value if set, else the global override's value
if set, else the default base value. -/
theorem get_section_filters_fields (c : NoctuaConfig) (sid : String) :
    get_section_filters c sid =
      { max_age_hours :=
          (overrideField ((c.settings.filter).bind (fun f => f.max_age_hours))
            ((sectionFilterOf c sid).bind (fun f => f.max_age_hours))).getD 72
        exclude_keywords :=
          (overrideField ((c.settings.filter).bind (fun f => f.exclude_keywords))
            ((sectionFilterOf c sid).bind (fun f => f.exclude_keywords))).getD []
        require_keywords :=
          (overrideField ((c.settings.filter).bind (fun f => f.require_keywords))
            ((sectionFilterOf c sid).bind (fun f => f.require_keywords))).getD []
        min_content_length := 0 } := by
  unfold get_section_filters get_effective_filter sectionFilterOf
  rcases hs : lookupSection c sid with _ | ⟨sn, sd, si, se, sfil, sfeeds⟩ <;>
    simp only [hs] <;>
    rcases hg : c.settings.filter with _ | ⟨g1, g2, g3, g4, g5, g6⟩ <;>
    simp only [hg, Option.bind_some, Option.bind_none]
  · rfl
  · rcases g1 <;> rcases g2 <;> rcases g3 <;> rfl
  · rcases sfil with _ | ⟨s1, s2, s3, s4, s5, s6⟩
    · rfl
    · rcases s1 <;> rcases s2 <;> rcases s3 <;> rfl
  · rcases sfil with _ | ⟨s1, s2, s3, s4, s5, s6⟩
    · rcases g1 <;> rcases g2 <;> rcases g3 <;> rfl
    · rcases g1 <;> rcases g2 <;> rcases g3 <;>
        rcases s1 <;> rcases s2 <;> rcases s3 <;> rfl

/-- C4: the effective filter policy for a section starts from the global
default base (`max_age_hours = 72`, empty keyword sets, the default
minimum content length) and applies the global override then the section
override, each layer overwriting exactly the keys it explicitly sets
(absent keys retain the inherited value); no per-feed layer participates
(the result is unchanged if every feed list in the configuration is
emptied), and — the resolver being a pure function — resolving twice from
the same configuration yields identical results. -/
theorem effective_section_policy (c : NoctuaConfig) (sid : String) :
    (get_section_filters c sid =
      { max_age_hours :=
          (overrideField ((c.settings.filter).bind (fun f => f.max_age_hours))
            ((sectionFilterOf c sid).bind (fun f => f.max_age_hours))).getD 72
        exclude_keywords :=
          (overrideField ((c.settings.filter).bind (fun f => f.exclude_keywords))
            ((sectionFilterOf c sid).bind (fun f => f.exclude_keywords))).getD []
        require_keywords :=
          (overrideField ((c.settings.filter).bind (fun f => f.require_keywords))
            ((sectionFilterOf c sid).bind (fun f => f.require_keywords))).getD []
        min_content_length := 0 }) ∧
    get_section_filters
      { settings := c.settings
        sections := c.sections.map (fun p => (p.1, { p.2 with feeds := [] })) } sid
      = get_section_filters c sid ∧
    get_section_filters c sid = get_section_filters c sid := by
  refine ⟨get_section_filters_fields c sid, ?_, rfl⟩
  have hlook : lookupSection
      { settings := c.settings
        sections := c.sections.map (fun p => (p.1, { p.2 with feeds := [] })) } sid
      = (lookupSection c sid).map (fun sec => { sec with feeds := [] }) := by
    unfold lookupSection
    generalize c.sections = l
    induction l with
    | nil => rfl
    | cons p rest ih =>
      simp only [List.map_cons, List.find?_cons]
      by_cases hp : p.1 = sid
      · simp [hp]
      · simpa [hp] using ih
  rw [get_section_filters_fields, get_section_filters_fields]
  have hsec : sectionFilterOf
      { settings := c.settings
        sections := c.sections.map (fun p => (p.1, { p.2 with feeds := [] })) } sid
      = sectionFilterOf c sid := by
    unfold sectionFilterOf
    rw [hlook]
    rcases lookupSection c sid with _ | sec <;> rfl
  rw [hsec]

/-! ## Claim C8 (deduplication is scoped per feed) -/

/-- A one-article feed is never flagged by the dedup scan. -/
theorem processFeedArticles_singleton (f : GlobalFilters) (now : DateTime) (a : Article) :
    processFeedArticles f now [a] = [filter_article f now a] := by
  unfold processFeedArticles deduplicate_articles
  simp [dedupGo]

/-- C8: deduplication is scoped per feed.  With two feeds in one section
each holding one article, and the two articles sharing the same URL
(`hurl` — also covering identical normalized titles), each feed is
processed purely from its own article list: neither article is flagged
as a duplicate of the other, and each feed's output is exactly the policy
result of its own article. -/
theorem dedup_scoped_per_feed (sectionFilters : String → GlobalFilters)
    (now endNow pat : DateTime) (st : String) (osum : Option String)
    (sec : Section) (f1 f2 : Feed) (a1 a2 : Article)
    (hfeeds : sec.feeds = [f1, f2])
    (h1 : f1.articles = [a1]) (h2 : f2.articles = [a2])
    (hurl : a1.url = a2.url)
    (hr1 : a1.filter_reason ≠ some "Duplicate URL" ∧ a1.filter_reason ≠ some "Duplicate title")
    (hr2 : a2.filter_reason ≠ some "Duplicate URL" ∧ a2.filter_reason ≠ some "Duplicate title") :
    (filter_feeds sectionFilters now endNow ⟨[sec], pat, st, osum⟩).sections =
      [{ sec with feeds := [
        { f1 with articles := [filter_article (sectionFilters sec.id) now a1] },
        { f2 with articles := [filter_article (sectionFilters sec.id) now a2] }] }] ∧
    ((filter_article (sectionFilters sec.id) now a1).filter_reason ≠ some "Duplicate URL" ∧
      (filter_article (sectionFilters sec.id) now a1).filter_reason ≠ some "Duplicate title") ∧
    ((filter_article (sectionFilters sec.id) now a2).filter_reason ≠ some "Duplicate URL" ∧
      (filter_article (sectionFilters sec.id) now a2).filter_reason ≠ some "Duplicate title") := by
  refine ⟨?_, ?_, ?_⟩
  · unfold filter_feeds
    simp only [List.map_cons, List.map_nil, hfeeds, h1, h2]
    rw [processFeedArticles_singleton, processFeedArticles_singleton]
  · have hconv : ∀ s, a1.filter_reason = some s →
        s ≠ "Duplicate URL" ∧ s ≠ "Duplicate title" := by
      intro s hs
      constructor
      · rintro rfl; exact hr1.1 hs
      · rintro rfl; exact hr1.2 hs
    have hres := filter_article_reason_not_dup (sectionFilters sec.id) now a1 hconv
    constructor
    · intro hr; exact (hres _ hr).1 rfl
    · intro hr; exact (hres _ hr).2 rfl
  · have hconv : ∀ s, a2.filter_reason = some s →
        s ≠ "Duplicate URL" ∧ s ≠ "Duplicate title" := by
      intro s hs
      constructor
      · rintro rfl; exact hr2.1 hs
      · rintro rfl; exact hr2.2 hs
    have hres := filter_article_reason_not_dup (sectionFilters sec.id) now a2 hconv
    constructor
    · intro hr; exact (hres _ hr).1 rfl
    · intro hr; exact (hres _ hr).2 rfl

/-- A second article with the URL of `cexFresh` for the cross-feed test. -/
def cexTwin : Article :=
  { id := "c3", title := "gamma", url := "https://x.com/a"
    published := none }

theorem dedup_scoped_per_feed_witness :
    (filter_feeds (fun _ => {}) cexNow cexNow
      ⟨[{ id := "s", name := "S"
          feeds := [
            { id := "fa", name := "FA", url := "ua", section_id := "s"
              articles := [cexFresh] },
            { id := "fb", name := "FB", url := "ub", section_id := "s"
              articles := [cexTwin] }] }], cexNow, "download", none⟩).sections =
      [{ id := "s", name := "S"
         feeds := [
           { id := "fa", name := "FA", url := "ua", section_id := "s"
             articles := [filter_article ((fun _ => ({} : GlobalFilters)) "s") cexNow cexFresh] },
           { id := "fb", name := "FB", url := "ub", section_id := "s"
             articles := [filter_article ((fun _ => ({} : GlobalFilters)) "s") cexNow cexTwin] }] }] ∧
    (filter_article ((fun _ => ({} : GlobalFilters)) "s") cexNow cexTwin).filter_reason
      ≠ some "Duplicate URL" := by
  have h := dedup_scoped_per_feed (fun _ => {}) cexNow cexNow cexNow "download" none
    { id := "s", name := "S"
      feeds := [
        { id := "fa", name := "FA", url := "ua", section_id := "s", articles := [cexFresh] },
        { id := "fb", name := "FB", url := "ub", section_id := "s", articles := [cexTwin] }] }
    { id := "fa", name := "FA", url := "ua", section_id := "s", articles := [cexFresh] }
    { id := "fb", name := "FB", url := "ub", section_id := "s", articles := [cexTwin] }
    cexFresh cexTwin rfl rfl rfl rfl
    (by exact ⟨by decide, by decide⟩) (by exact ⟨by decide, by decide⟩)
  exact ⟨h.1, h.2.2.1⟩

/-! ## Claim C5 (orchestrator output shape and ordering) -/

/-- After a fold that writes slot `j` whenever task `j` completes, slot `j`
holds task `j`'s result if `j` completed, and its previous content
otherwise. -/
theorem gatherRun_getElem (tasks : List Feed) (completion : List Nat) :
    ∀ (acc : List (Option Feed)), acc.length = tasks.length →
    ∀ j tj, tasks[j]? = some tj →
      (completion.foldl
        (fun acc i =>
          match tasks[i]? with
          | some t => acc.set i (some t)
          | none => acc) acc)[j]? =
        if j ∈ completion then some (some tj) else acc[j]? := by
  induction completion with
  | nil =>
    intro acc hlen j tj hj
    simp
  | cons i rest ih =>
    intro acc hlen j tj hj
    simp only [List.foldl_cons]
    have hlen' : (match tasks[i]? with
        | some t => acc.set i (some t)
        | none => acc).length = tasks.length := by
      rcases tasks[i]? with _ | t
      · exact hlen
      · simp [hlen]
    rw [ih _ hlen' j tj hj]
    by_cases hjr : j ∈ rest
    · simp [hjr, List.mem_cons]
    · by_cases hij : j = i
      · subst hij
        rw [hj]
        have hjlt : j < acc.length := by
          rw [hlen]
          exact (List.getElem?_eq_some_iff.mp hj).1
        simp [hjr, List.getElem?_set_self hjlt]
      · have hacc : (match tasks[i]? with
            | some t => acc.set i (some t)
            | none => acc)[j]? = acc[j]? := by
          rcases tasks[i]? with _ | t
          · rfl
          · exact List.getElem?_set_ne (fun h => hij h.symm)
        rw [hacc]
        simp [hjr, hij, List.mem_cons]

/-- When every task index completed, reading the slots out by index
returns exactly the task list — the completion order is irrelevant. -/
theorem gatherOut_complete (tasks : List Feed) (completion : List Nat)
    (hcov : ∀ j, j < tasks.length → j ∈ completion) :
    gatherOut tasks completion = tasks := by
  have hrun : gatherRun tasks completion = tasks.map some := by
    apply List.ext_getElem?
    intro j
    rcases hj : tasks[j]? with _ | tj
    · have hjge : tasks.length ≤ j := List.getElem?_eq_none_iff.mp hj
      have h1 : (gatherRun tasks completion).length ≤ j := by
        unfold gatherRun
        have : ∀ (cs : List Nat) (acc : List (Option Feed)), acc.length = tasks.length →
            (cs.foldl (fun acc i =>
              match tasks[i]? with
              | some t => acc.set i (some t)
              | none => acc) acc).length = tasks.length := by
          intro cs
          induction cs with
          | nil => intro acc h; exact h
          | cons i rest ih =>
            intro acc h
            simp only [List.foldl_cons]
            apply ih
            rcases tasks[i]? with _ | t
            · exact h
            · simp [h]
        rw [this completion (List.replicate tasks.length none) (by simp)]
        exact hjge
      rw [List.getElem?_eq_none h1, List.getElem?_eq_none (by simpa using hjge)]
    · unfold gatherRun
      rw [gatherRun_getElem tasks completion (List.replicate tasks.length none) (by simp)
        j tj hj]
      have hjlt : j < tasks.length := (List.getElem?_eq_some_iff.mp hj).1
      rw [if_pos (hcov j hjlt)]
      rw [List.getElem?_map, hj]
      rfl
  unfold gatherOut
  rw [hrun, List.filterMap_map]
  simpa using List.filterMap_some tasks

/-- An enabled section of the counterexample configuration that has no
feeds at all. -/
def cexCfgEmpty : NoctuaConfig := { sections := [("s", { name := "S" })] }

/-- A fetch result carrying the feed configuration it came from. -/
def fetchById (section_id : String) (fc : FeedConfig) : Feed :=
  { id := fc.name, name := fc.name, url := fc.url, section_id := section_id }

/-- C5 counterexample: the orchestrator does *not* emit every enabled
section.  An enabled section whose enabled-feed list is empty is skipped
(`continue` before the append), so the output section ids differ from
the enabled section ids. -/
theorem download_all_enabled_sections_false :
    (download_feeds fetchById cexNow (fun _ => []) cexCfgEmpty).sections.map Section.id
      ≠ (get_enabled_sections cexCfgEmpty).map (fun p => p.1) := by
  decide

/-- C5 (amended): the orchestrator's output is one `FeedData` with
`step = "download"` whose sections are exactly the enabled sections *that
have at least one enabled feed*, in configuration order, and the feeds
inside each section are that section's enabled feeds' fetch results in
configuration order — regardless of the completion order of the
concurrent fetches (any completion order covering every dispatched task
yields the same output). -/
theorem download_sections_order (fetchRes : String → FeedConfig → Feed) (now : DateTime)
    (completion : String → List Nat) (cfg : NoctuaConfig)
    (hcov : ∀ p ∈ get_enabled_sections cfg,
      ∀ j, j < (get_enabled_feeds cfg p.1).length → j ∈ completion p.1) :
    (download_feeds fetchRes now completion cfg).sections =
      ((get_enabled_sections cfg).filter
        (fun p => !(get_enabled_feeds cfg p.1).isEmpty)).map
        (fun p =>
          { id := p.1, name := p.2.name, description := p.2.description, icon := p.2.icon
            feeds := (get_enabled_feeds cfg p.1).map (fetchRes p.1) }) ∧
    (download_feeds fetchRes now completion cfg).step = "download" := by
  constructor
  · show (get_enabled_sections cfg).filterMap _ = _
    have : ∀ l : List (String × SectionConfig),
        (∀ p ∈ l, ∀ j, j < (get_enabled_feeds cfg p.1).length → j ∈ completion p.1) →
        l.filterMap (fun p =>
          if (get_enabled_feeds cfg p.1).isEmpty then none
          else
            some
              ({ id := p.1, name := p.2.name, description := p.2.description, icon := p.2.icon
                 feeds := gatherOut ((get_enabled_feeds cfg p.1).map (fetchRes p.1))
                   (completion p.1) } : Section)) =
        (l.filter (fun p => !(get_enabled_feeds cfg p.1).isEmpty)).map
          (fun p =>
            ({ id := p.1, name := p.2.name, description := p.2.description, icon := p.2.icon
               feeds := (get_enabled_feeds cfg p.1).map (fetchRes p.1) } : Section)) := by
      intro l
      induction l with
      | nil => intro _; rfl
      | cons p rest ih =>
        intro hc
        have hrest : ∀ q ∈ rest, ∀ j, j < (get_enabled_feeds cfg q.1).length →
            j ∈ completion q.1 :=
          fun q hq => hc q (List.mem_cons_of_mem p hq)
        have hp := hc p (List.mem_cons_self p rest)
        simp only [List.filterMap_cons, List.filter_cons]
        by_cases he : (get_enabled_feeds cfg p.1).isEmpty
        · simp only [he, if_pos, Bool.not_true, if_neg, Bool.false_eq_true,
            not_false_iff]
          rw [ih hrest]
        · have hgath : gatherOut ((get_enabled_feeds cfg p.1).map (fetchRes p.1))
              (completion p.1) = (get_enabled_feeds cfg p.1).map (fetchRes p.1) := by
            apply gatherOut_complete
            intro j hj
            rw [List.length_map] at hj
            exact hp j hj
          simp only [he, if_neg, Bool.false_eq_true, not_false_iff, Bool.not_false,
            if_pos, hgath]
          rw [ih hrest]
          simp [List.filter_cons, he]
    exact this (get_enabled_sections cfg) hcov
  · rfl

/-- Two enabled feeds in one enabled section. -/
def cexCfgTwo : NoctuaConfig :=
  { sections := [("s",
      { name := "S"
        feeds := [{ name := "A", url := "https://a" }, { name := "B", url := "https://b" }] })] }

theorem download_sections_order_witness :
    (download_feeds fetchById cexNow (fun _ => [1, 0]) cexCfgTwo).sections =
      [{ id := "s", name := "S", description := "", icon := ""
         feeds := [fetchById "s" { name := "A", url := "https://a" },
                   fetchById "s" { name := "B", url := "https://b" }] }] := by
  have hcov : ∀ p ∈ get_enabled_sections cexCfgTwo,
      ∀ j, j < (get_enabled_feeds cexCfgTwo p.1).length → j ∈ (fun _ => [1, 0]) p.1 := by
    intro p hp j hj
    fin_cases hp
    have h2 : j < 2 := hj
    interval_cases j <;> decide
  have h := (download_sections_order fetchById cexNow (fun _ => [1, 0]) cexCfgTwo hcov).1
  rw [h]
  decide

/-! ## Claim C6 (image extraction during entry normalization) -/

/-- Modelled from the claim (for refutation): image resolution as C6
states it — the same priority chain, but with the `<img>` search of
stage 3 performed on the raw field that was chosen for the summary
content (summary preferred over full content when both exist). -/
def imageUrlClaimC6 (libs : Collab) (entry : Entry) : Option String :=
  let image1 := mediaImageFirst entry
  let image2 : Option String :=
    if truthyS image1 then image1
    else
      match enclosureImageFirst entry with
      | some href => some href
      | none => image1
  if truthyS image2 then image2
  else
    let search_text :=
      if entryRawSummary entry ≠ "" then entryRawSummary entry else entryRawContent entry
    if search_text ≠ "" then
      match libs.findImgSrc search_text with
      | some src => if src ≠ "" then some src else image2
      | none => image2
    else image2

/-- A toy `<img src>` extractor distinguishing the two raw fields. -/
def cexFindImg (s : String) : Option String :=
  if s = "<p><img src=pic.png></p>" then some "pic.png" else none

/-- An entry carrying both a summary (no image) and a full-content field
(with an image). -/
def cexEntryBoth : Entry :=
  { title := some "t", summary := some "plain words"
    content := some [{ value := some "<p><img src=pic.png></p>" }] }

def cexLibs : Collab :=
  { sha16 := fun _ => "h"
    bsGetText := fun _ => none
    findImgSrc := cexFindImg
    parseDate := fun _ => none }

/-- C6 counterexample: for an entry with both a non-empty summary and a
non-empty full-content field, the code searches for `<img>` in the *raw
content* (`raw_content or raw_summary`), while the summary text is
chosen from the *raw summary* (summary preferred) — not "the same raw
field".  Here the claim's resolution finds no image while the code
returns the content-side image. -/
theorem image_search_field_false :
    entryImageUrl cexLibs cexEntryBoth = some "pic.png" ∧
    imageUrlClaimC6 cexLibs cexEntryBoth = none ∧
    entryImageUrl cexLibs cexEntryBoth ≠ imageUrlClaimC6 cexLibs cexEntryBoth := by
  refine ⟨by decide, by decide, by decide⟩

/-- C6 (amended): entry normalization computes an image URL in priority
order — (1) the first media-extension image, then (2) the first
`image/`-typed enclosure, then (3) the first `<img>` src found in the raw
*full-content* field if non-empty, else the raw summary field (content
preferred; this is not the field chosen for the summary text, which
prefers the summary), before sanitization strips the markup.  The
computed value, however, never reaches the produced `Article`: the
`Article` model declares no `image_url` field, so the keyword passed to
the constructor is dropped and the normalizer's output is independent of
the `<img>` extractor. -/
theorem entry_image_resolution (libs : Collab) (entry : Entry)
    (feed_name section_id : String) :
    (truthyS (mediaImageFirst entry) = true →
      entryImageUrl libs entry = mediaImageFirst entry) ∧
    (truthyS (mediaImageFirst entry) = false →
      ∀ h, enclosureImageFirst entry = some h → h ≠ "" →
        entryImageUrl libs entry = some h) ∧
    (mediaImageFirst entry = none → enclosureImageFirst entry = none →
      entryImageUrl libs entry =
        (if pyOrStr (entryRawContent entry) (entryRawSummary entry) ≠ "" then
          match libs.findImgSrc (pyOrStr (entryRawContent entry) (entryRawSummary entry)) with
          | some src => if src ≠ "" then some src else none
          | none => none
        else none)) ∧
    (∀ g, parse_feed_entry { libs with findImgSrc := g } entry feed_name section_id
      = parse_feed_entry libs entry feed_name section_id) := by
  refine ⟨?_, ?_, ?_, ?_⟩
  · intro h1
    unfold entryImageUrl
    simp only [h1, if_pos]
  · intro h1 h henc hne
    unfold entryImageUrl
    simp only [h1, Bool.false_eq_true, if_neg, not_false_iff, henc]
    have h2 : truthyS (some h) = true := by
      simp [truthyS, hne]
    simp only [h2, if_pos]
  · intro h1 h2
    unfold entryImageUrl
    rw [h1, h2]
    simp only [truthyS, Bool.false_eq_true, if_neg, not_false_iff]
  · intro g
    rfl

theorem entry_image_resolution_witness :
    entryImageUrl cexLibs cexEntryBoth = some "pic.png" ∧
    parse_feed_entry { cexLibs with findImgSrc := fun _ => none } cexEntryBoth "f" "s"
      = parse_feed_entry cexLibs cexEntryBoth "f" "s" := by
  have h := entry_image_resolution cexLibs cexEntryBoth "f" "s"
  refine ⟨?_, h.2.2.2 (fun _ => none)⟩
  have h3 := h.2.2.1 rfl rfl
  rw [h3]
  decide

/-! ## Claim C9 (snapshot serialization round trip)

`save_step_output` / `load_step_output` (io.py, lines 60–120) delegate the
actual (de)serialization to pydantic's `model_dump_json` /
`model_validate` and `json.load`, which are not part of `src/`.  The
persisted document is therefore modelled from the spec (§6): a JSON tree
whose field names mirror the data model, with timestamps as ISO-8601
strings and optional fields as explicit nulls.  File I/O and the JSON
text syntax are the `json` library collaborator and stay outside the
model: the round trip is stated on the document tree. -/

inductive Json where
  | null
  | str (s : String)
  | bool (b : Bool)
  | num (n : Int)
  | arr (xs : List Json)
  | obj (fields : List (String × Json))

/-! ### ISO-8601 rendering and parsing of timestamps -/

/-- The ASCII digit for `n % 10`. -/
def digitChar (n : Nat) : Char :=
  Char.ofNat (48 + n % 10)

/-- The numeric value of an ASCII digit. -/
def digitVal (c : Char) : Option Nat :=
  if 48 ≤ c.toNat ∧ c.toNat ≤ 57 then some (c.toNat - 48) else none

def pad2 (n : Nat) : List Char := [digitChar (n / 10), digitChar (n % 10)]

def pad4 (n : Nat) : List Char :=
  [digitChar (n / 1000), digitChar (n / 100 % 10), digitChar (n / 10 % 10), digitChar (n % 10)]

def parse2 (a b : Char) : Option Nat :=
  match digitVal a, digitVal b with
  | some x, some y => some (10 * x + y)
  | _, _ => none

def parse4 (a b c d : Char) : Option Nat :=
  match digitVal a, digitVal b, digitVal c, digitVal d with
  | some x, some y, some z, some w => some (1000 * x + 100 * y + 10 * z + w)
  | _, _, _, _ => none

/-- `YYYY-MM-DDTHH:MM:SS`. -/
def isoRender (t : DateTime) : String :=
  ⟨pad4 t.year ++ '-' :: (pad2 t.month ++ '-' :: (pad2 t.day ++ 'T' ::
    (pad2 t.hour ++ ':' :: (pad2 t.minute ++ ':' :: pad2 t.second))))⟩

def isoParse (s : String) : Option DateTime :=
  match s.data with
  | [y1, y2, y3, y4, sep1, m1, m2, sep2, d1, d2, sep3,
     h1, h2, sep4, mi1, mi2, sep5, s1, s2] =>
    if sep1 = '-' ∧ sep2 = '-' ∧ sep3 = 'T' ∧ sep4 = ':' ∧ sep5 = ':' then
      match parse4 y1 y2 y3 y4, parse2 m1 m2, parse2 d1 d2,
          parse2 h1 h2, parse2 mi1 mi2, parse2 s1 s2 with
      | some y, some mo, some d, some h, some mi, some sec =>
        some ⟨y, mo, d, h, mi, sec⟩
      | _, _, _, _, _, _ => none
    else none
  | _ => none

/-- Component bounds under which the fixed-width rendering is faithful. -/
def DateTime.InRange (t : DateTime) : Prop :=
  t.year < 10000 ∧ t.month < 100 ∧ t.day < 100 ∧
    t.hour < 100 ∧ t.minute < 100 ∧ t.second < 100

/-! ### Encoding (modelled on `model_dump_json`: declaration-ordered
fields, `None` as `null`, datetimes as ISO strings) -/

def encOptStr : Option String → Json
  | none => .null
  | some s => .str s

def encOptDT : Option DateTime → Json
  | none => .null
  | some t => .str (isoRender t)

def encArticle (a : Article) : Json :=
  .obj [("id", .str a.id), ("title", .str a.title), ("url", .str a.url),
        ("published", encOptDT a.published), ("updated", encOptDT a.updated),
        ("author", encOptStr a.author), ("summary", encOptStr a.summary),
        ("content", encOptStr a.content), ("clean_content", encOptStr a.clean_content),
        ("ai_summary", encOptStr a.ai_summary), ("word_count", .num a.word_count),
        ("feed_name", .str a.feed_name), ("section_id", .str a.section_id),
        ("tags", .arr (a.tags.map .str)), ("is_filtered", .bool a.is_filtered),
        ("filter_reason", encOptStr a.filter_reason)]

def encFeed (f : Feed) : Json :=
  .obj [("id", .str f.id), ("name", .str f.name), ("url", .str f.url),
        ("section_id", .str f.section_id), ("title", encOptStr f.title),
        ("description", encOptStr f.description), ("link", encOptStr f.link),
        ("last_updated", encOptDT f.last_updated),
        ("articles", .arr (f.articles.map encArticle)),
        ("fetch_status", .str f.fetch_status),
        ("fetch_error", encOptStr f.fetch_error),
        ("fetched_at", encOptDT f.fetched_at)]

def encSection (s : Section) : Json :=
  .obj [("id", .str s.id), ("name", .str s.name),
        ("description", .str s.description), ("icon", .str s.icon),
        ("feeds", .arr (s.feeds.map encFeed)),
        ("ai_summary", encOptStr s.ai_summary)]

def encFeedData (d : FeedData) : Json :=
  .obj [("sections", .arr (d.sections.map encSection)),
        ("processed_at", .str (isoRender d.processed_at)),
        ("step", .str d.step),
        ("overall_summary", encOptStr d.overall_summary)]

/-! ### Decoding (modelled on `model_validate`) -/

def jGet (fields : List (String × Json)) (key : String) : Option Json :=
  (fields.find? (fun p => p.1 = key)).map (fun p => p.2)

def asStr : Json → Option String
  | .str s => some s
  | _ => none

def asBool : Json → Option Bool
  | .bool b => some b
  | _ => none

def asInt : Json → Option Int
  | .num n => some n
  | _ => none

def asOptStr : Json → Option (Option String)
  | .null => some none
  | .str s => some (some s)
  | _ => none

def asOptDT : Json → Option (Option DateTime)
  | .null => some none
  | .str s => (isoParse s).map some
  | _ => none

def decList {α : Type} (dec : Json → Option α) : List Json → Option (List α)
  | [] => some []
  | j :: rest =>
    match dec j, decList dec rest with
    | some x, some xs => some (x :: xs)
    | _, _ => none

def getStr (fields : List (String × Json)) (key : String) : Option String :=
  (jGet fields key).bind asStr

def getBool (fields : List (String × Json)) (key : String) : Option Bool :=
  (jGet fields key).bind asBool

def getInt (fields : List (String × Json)) (key : String) : Option Int :=
  (jGet fields key).bind asInt

def getOptStr (fields : List (String × Json)) (key : String) : Option (Option String) :=
  (jGet fields key).bind asOptStr

def getOptDT (fields : List (String × Json)) (key : String) : Option (Option DateTime) :=
  (jGet fields key).bind asOptDT

def getArr (fields : List (String × Json)) (key : String) : Option (List Json) :=
  (jGet fields key).bind (fun j =>
    match j with
    | .arr xs => some xs
    | _ => none)

def decArticle (j : Json) : Option Article :=
  match j with
  | .obj fields => do
    let id ← getStr fields "id"
    let title ← getStr fields "title"
    let url ← getStr fields "url"
    let published ← getOptDT fields "published"
    let updated ← getOptDT fields "updated"
    let author ← getOptStr fields "author"
    let summary ← getOptStr fields "summary"
    let content ← getOptStr fields "content"
    let clean_content ← getOptStr fields "clean_content"
    let ai_summary ← getOptStr fields "ai_summary"
    let word_count ← getInt fields "word_count"
    let feed_name ← getStr fields "feed_name"
    let section_id ← getStr fields "section_id"
    let tagsj ← getArr fields "tags"
    let tags ← decList asStr tagsj
    let is_filtered ← getBool fields "is_filtered"
    let filter_reason ← getOptStr fields "filter_reason"
    some { id := id, title := title, url := url, published := published
           updated := updated, author := author, summary := summary
           content := content, clean_content := clean_content
           ai_summary := ai_summary, word_count := word_count
           feed_name := feed_name, section_id := section_id, tags := tags
           is_filtered := is_filtered, filter_reason := filter_reason }
  | _ => none

def decFeed (j : Json) : Option Feed :=
  match j with
  | .obj fields => do
    let id ← getStr fields "id"
    let name ← getStr fields "name"
    let url ← getStr fields "url"
    let section_id ← getStr fields "section_id"
    let title ← getOptStr fields "title"
    let description ← getOptStr fields "description"
    let link ← getOptStr fields "link"
    let last_updated ← getOptDT fields "last_updated"
    let articlesj ← getArr fields "articles"
    let articles ← decList decArticle articlesj
    let fetch_status ← getStr fields "fetch_status"
    let fetch_error ← getOptStr fields "fetch_error"
    let fetched_at ← getOptDT fields "fetched_at"
    some { id := id, name := name, url := url, section_id := section_id
           title := title, description := description, link := link
           last_updated := last_updated, articles := articles
           fetch_status := fetch_status, fetch_error := fetch_error
           fetched_at := fetched_at }
  | _ => none

def decSection (j : Json) : Option Section :=
  match j with
  | .obj fields => do
    let id ← getStr fields "id"
    let name ← getStr fields "name"
    let description ← getStr fields "description"
    let icon ← getStr fields "icon"
    let feedsj ← getArr fields "feeds"
    let feeds ← decList decFeed feedsj
    let ai_summary ← getOptStr fields "ai_summary"
    some { id := id, name := name, description := description, icon := icon
           feeds := feeds, ai_summary := ai_summary }
  | _ => none

def decFeedData (j : Json) : Option FeedData :=
  match j with
  | .obj fields => do
    let sectionsj ← getArr fields "sections"
    let sections ← decList decSection sectionsj
    let processed_at_s ← getStr fields "processed_at"
    let processed_at ← isoParse processed_at_s
    let step ← getStr fields "step"
    let overall_summary ← getOptStr fields "overall_summary"
    some { sections := sections, processed_at := processed_at, step := step
           overall_summary := overall_summary }
  | _ => none

/-- Modelled from the spec: `save_step_output` (io.py, lines 60–86)
writes `data.model_dump_json(indent=2)`; pydantic's serializer is not in
`src/`, so its output document is modelled as the `Json` tree
`encFeedData`. -/
def save_step_output (data : FeedData) : Json :=
  encFeedData data

/-- Modelled from the spec: `load_step_output` (io.py, lines 89–120)
reads the document back with `json.load` and `model_class.model_validate`;
validation of the document tree is modelled by `decFeedData`. -/
def load_step_output (doc : Json) : Option FeedData :=
  decFeedData doc

theorem digitVal_digitChar (n : Nat) (h : n < 10) : digitVal (digitChar n) = some n := by
  interval_cases n <;> decide

theorem parse2_pad2 (n : Nat) (h : n < 100) :
    parse2 (digitChar (n / 10)) (digitChar (n % 10)) = some n := by
  unfold parse2
  rw [digitVal_digitChar _ (by omega), digitVal_digitChar _ (by omega)]
  show some (10 * (n / 10) + n % 10) = some n
  have h2 : 10 * (n / 10) + n % 10 = n := by omega
  rw [h2]

theorem parse4_pad4 (n : Nat) (h : n < 10000) :
    parse4 (digitChar (n / 1000)) (digitChar (n / 100 % 10))
      (digitChar (n / 10 % 10)) (digitChar (n % 10)) = some n := by
  unfold parse4
  rw [digitVal_digitChar _ (by omega), digitVal_digitChar _ (by omega),
    digitVal_digitChar _ (by omega), digitVal_digitChar _ (by omega)]
  show some (1000 * (n / 1000) + 100 * (n / 100 % 10) + 10 * (n / 10 % 10) + n % 10) = some n
  have h2 : 1000 * (n / 1000) + 100 * (n / 100 % 10) + 10 * (n / 10 % 10) + n % 10 = n := by
    omega
  rw [h2]

theorem isoParse_isoRender (t : DateTime) (h : t.InRange) :
    isoParse (isoRender t) = some t := by
  obtain ⟨hy, hmo, hd, hh, hmi, hs⟩ := h
  show (if '-' = '-' ∧ '-' = '-' ∧ 'T' = 'T' ∧ ':' = ':' ∧ ':' = ':' then
      match parse4 (digitChar (t.year / 1000)) (digitChar (t.year / 100 % 10))
          (digitChar (t.year / 10 % 10)) (digitChar (t.year % 10)),
        parse2 (digitChar (t.month / 10)) (digitChar (t.month % 10)),
        parse2 (digitChar (t.day / 10)) (digitChar (t.day % 10)),
        parse2 (digitChar (t.hour / 10)) (digitChar (t.hour % 10)),
        parse2 (digitChar (t.minute / 10)) (digitChar (t.minute % 10)),
        parse2 (digitChar (t.second / 10)) (digitChar (t.second % 10)) with
      | some y, some mo, some d, some h, some mi, some sec =>
        some (⟨y, mo, d, h, mi, sec⟩ : DateTime)
      | _, _, _, _, _, _ => none
    else none) = some t
  rw [if_pos ⟨rfl, rfl, rfl, rfl, rfl⟩]
  rw [parse4_pad4 t.year hy, parse2_pad2 t.month hmo, parse2_pad2 t.day hd,
    parse2_pad2 t.hour hh, parse2_pad2 t.minute hmi, parse2_pad2 t.second hs]

/-- All timestamps of a snapshot lie in the renderable range. -/
def optInRange : Option DateTime → Prop
  | none => True
  | some t => t.InRange

def Article.TimesInRange (a : Article) : Prop :=
  optInRange a.published ∧ optInRange a.updated

def Feed.TimesInRange (f : Feed) : Prop :=
  optInRange f.last_updated ∧ optInRange f.fetched_at ∧
    ∀ a ∈ f.articles, a.TimesInRange

def Section.TimesInRange (s : Section) : Prop :=
  ∀ f ∈ s.feeds, f.TimesInRange

def FeedData.TimesInRange (d : FeedData) : Prop :=
  d.processed_at.InRange ∧ ∀ s ∈ d.sections, s.TimesInRange

theorem asOptStr_encOptStr (o : Option String) : asOptStr (encOptStr o) = some o := by
  cases o <;> rfl

theorem asOptDT_encOptDT (o : Option DateTime) (h : optInRange o) :
    asOptDT (encOptDT o) = some o := by
  cases o with
  | none => rfl
  | some t =>
    show (isoParse (isoRender t)).map some = some (some t)
    rw [isoParse_isoRender t h]
    rfl

theorem decList_map {α : Type} (enc : α → Json) (dec : Json → Option α) (l : List α)
    (h : ∀ x ∈ l, dec (enc x) = some x) : decList dec (l.map enc) = some l := by
  induction l with
  | nil => rfl
  | cons x rest ih =>
    simp only [List.map_cons, decList]
    rw [h x (List.mem_cons_self x rest), ih (fun y hy => h y (List.mem_cons_of_mem x hy))]

theorem decList_asStr_map (l : List String) : decList asStr (l.map Json.str) = some l :=
  decList_map Json.str asStr l (fun _ _ => rfl)

theorem decArticle_encArticle (a : Article) (h : a.TimesInRange) :
    decArticle (encArticle a) = some a := by
  obtain ⟨h1, h2⟩ := h
  simp [decArticle, encArticle, jGet, getStr, getBool, getInt, getOptStr, getOptDT,
    getArr, asStr, asBool, asInt, asOptStr_encOptStr, asOptDT_encOptDT _ h1,
    asOptDT_encOptDT _ h2, decList_asStr_map]

theorem decFeed_encFeed (f : Feed) (h : f.TimesInRange) :
    decFeed (encFeed f) = some f := by
  obtain ⟨h1, h2, h3⟩ := h
  have harts : decList decArticle (f.articles.map encArticle) = some f.articles :=
    decList_map encArticle decArticle f.articles
      (fun a ha => decArticle_encArticle a (h3 a ha))
  simp [decFeed, encFeed, jGet, getStr, getBool, getInt, getOptStr, getOptDT,
    getArr, asStr, asBool, asInt, asOptStr_encOptStr, asOptDT_encOptDT _ h1,
    asOptDT_encOptDT _ h2, harts]

theorem decSection_encSection (s : Section) (h : s.TimesInRange) :
    decSection (encSection s) = some s := by
  have hfeeds : decList decFeed (s.feeds.map encFeed) = some s.feeds :=
    decList_map encFeed decFeed s.feeds (fun f hf => decFeed_encFeed f (h f hf))
  simp [decSection, encSection, jGet, getStr, getOptStr, getArr, asStr,
    asOptStr_encOptStr, hfeeds]

/-- C9: serializing any `FeedData` snapshot with `save_step_output` and
deserializing it with `load_step_output` reproduces an equal tree — the
same sections, feeds and articles with the same field values in the same
order — with timestamps surviving via their ISO-8601 string rendering and
optional fields via explicit nulls (the `TimesInRange` hypothesis asks
only that every timestamp have renderable fixed-width components, which
Python datetimes always do). -/
theorem snapshot_round_trip (d : FeedData) (h : d.TimesInRange) :
    load_step_output (save_step_output d) = some d := by
  obtain ⟨h1, h2⟩ := h
  have hsecs : decList decSection (d.sections.map encSection) = some d.sections :=
    decList_map encSection decSection d.sections
      (fun s hs => decSection_encSection s (h2 s hs))
  simp [load_step_output, save_step_output, decFeedData, encFeedData, jGet,
    getStr, getOptStr, getArr, asStr, asOptStr_encOptStr, hsecs,
    isoParse_isoRender d.processed_at h1]

/-- A small concrete snapshot: one section, one feed, one article, with
every optional field exercised on both the `none` and `some` sides. -/
def sampleSnapshot : FeedData :=
  { sections := [
      { id := "tech", name := "Tech", description := "d", icon := "i"
        feeds := [
          { id := "f1", name := "F", url := "https://f/rss", section_id := "tech"
            title := some "Feed title", description := none, link := some "https://f"
            last_updated := none
            articles := [
              { id := "a1", title := "T", url := "https://f/a1"
                published := some ⟨2026, 1, 9, 13, 30, 5⟩, updated := none
                author := some "Ann", summary := some "S", content := none
                clean_content := none, ai_summary := none, word_count := 3
                feed_name := "F", section_id := "tech", tags := ["x", "y"]
                is_filtered := false, filter_reason := none }]
            fetch_status := "success", fetch_error := none
            fetched_at := some ⟨2026, 1, 10, 0, 0, 1⟩ }]
        ai_summary := none }]
    processed_at := ⟨2026, 1, 10, 0, 0, 2⟩
    step := "download"
    overall_summary := none }

theorem snapshot_round_trip_witness :
    load_step_output (save_step_output sampleSnapshot) = some sampleSnapshot :=
  snapshot_round_trip sampleSnapshot
    (by
      refine ⟨⟨by decide, by decide, by decide, by decide, by decide, by decide⟩, ?_⟩
      intro s hs
      fin_cases hs
      intro f hf
      fin_cases hf
      refine ⟨trivial,
        ⟨by decide, by decide, by decide, by decide, by decide, by decide⟩, ?_⟩
      intro a ha
      fin_cases ha
      exact ⟨⟨by decide, by decide, by decide, by decide, by decide, by decide⟩, trivial⟩)

end Noctua
